import Mathlib

/-!
Shallow embedding of the CSV-cleaning engine in `streamlit_app.py`
(class `OptimizedCSVCleaner`).  Python strings are modelled as `List Char`
(`Str`); a missing (NaN) cell is `none`.  The two external collaborators of
`format_date` are passed as parameters: the free-form fallback parser
`pd.to_datetime(_, errors := coerce)` is an oracle `ff : Str → Option SDate`,
and the clock read `pd.Timestamp.now().year` is an integer `cy`.
`pd.to_datetime(_, format := fmt)` is modelled by strptime-style field
parsers; the pandas `Timestamp` nanosecond range (years 1677-2262) is not
modelled, since no claim exercises dates outside it.
-/

set_option maxRecDepth 4000

abbrev Str := List Char

abbrev Cell := Option Str

/-- Python `str.strip()`: drop whitespace from both ends. -/
def strip (l : Str) : Str :=
  (((l.dropWhile Char.isWhitespace).reverse).dropWhile Char.isWhitespace).reverse

/-- Drop trailing whitespace (the second half of `strip`). -/
def dropTrail (l : Str) : Str := (l.reverse.dropWhile Char.isWhitespace).reverse

/-- Python `str.lower()` (ASCII model). -/
def lowerStr (l : Str) : Str := l.map Char.toLower

/-- Split a character list at every occurrence of `sep` (like `str.split(sep)`
restricted to the way strptime consumes one-character literal separators). -/
def splitChar (sep : Char) : Str → List Str
  | [] => [[]]
  | a :: t =>
    if a = sep then [] :: splitChar sep t
    else
      match splitChar sep t with
      | r :: rs => (a :: r) :: rs
      | [] => [[a]]

/-- Numeric value of a most-significant-first digit list. -/
def digitsToNat : Str → Nat
  | [] => 0
  | c :: t => (c.toNat - 48) * 10 ^ t.length + digitsToNat t

def allDigits (l : Str) : Bool := l.all Char.isDigit

/-- strptime `%m`: one or two digits, value 1..12. -/
def parseMonthF (l : Str) : Option Nat :=
  if 1 ≤ l.length ∧ l.length ≤ 2 ∧ allDigits l = true ∧
      1 ≤ digitsToNat l ∧ digitsToNat l ≤ 12 then some (digitsToNat l) else none

/-- strptime `%d`: one or two digits, value 1..31. -/
def parseDayF (l : Str) : Option Nat :=
  if 1 ≤ l.length ∧ l.length ≤ 2 ∧ allDigits l = true ∧
      1 ≤ digitsToNat l ∧ digitsToNat l ≤ 31 then some (digitsToNat l) else none

/-- strptime `%y`: exactly two digits. -/
def parseY2F (l : Str) : Option Nat :=
  if l.length = 2 ∧ allDigits l = true then some (digitsToNat l) else none

/-- strptime `%Y`: exactly four digits. -/
def parseY4F (l : Str) : Option Nat :=
  if l.length = 4 ∧ allDigits l = true then some (digitsToNat l) else none

/-- A parsed calendar date (the `year/month/day` triple of a `pd.Timestamp`). -/
structure SDate where
  year : Int
  month : Nat
  day : Nat
deriving DecidableEq

def isLeapYear (y : Int) : Bool :=
  (y % 4 = 0 ∧ y % 100 ≠ 0) ∨ y % 400 = 0

def daysInMonth (y : Int) (m : Nat) : Nat :=
  if m = 2 then (if isLeapYear y then 29 else 28)
  else if m = 4 ∨ m = 6 ∨ m = 9 ∨ m = 11 then 30 else 31

def validDMY (y : Int) (m d : Nat) : Bool :=
  decide (1 ≤ m) && decide (m ≤ 12) && decide (1 ≤ d) && decide (d ≤ daysInMonth y m)

/-- `pd.Timestamp(year, month, day)`: succeeds only on a real calendar date. -/
def mkValidDate (y : Int) (m d : Nat) : Option SDate :=
  if validDMY y m d = true then some ⟨y, m, d⟩ else none

/-- strptime century resolution for `%y`: 00-68 → 2000s, 69-99 → 1900s. -/
def resolveY2 (yy : Nat) : Int :=
  if yy ≤ 68 then 2000 + (yy : Int) else 1900 + (yy : Int)

/-- First `some` in a list of attempts (the `for fmt in ...: try/continue` loop). -/
def firstSome {α : Type} : List (Option α) → Option α
  | [] => none
  | some x :: _ => some x
  | none :: t => firstSome t

/-- `pd.to_datetime(s, format="%m<sep>%d<sep>%Y")`. -/
def parseMDY4 (sep : Char) (s : Str) : Option SDate :=
  match splitChar sep s with
  | [ms, ds, ys] =>
    match parseMonthF ms, parseDayF ds, parseY4F ys with
    | some m, some d, some y =>
        if validDMY (y : Int) m d = true then some ⟨(y : Int), m, d⟩ else none
    | _, _, _ => none
  | _ => none

/-- `pd.to_datetime(s, format="%Y<sep>%m<sep>%d")`. -/
def parseYMD4 (sep : Char) (s : Str) : Option SDate :=
  match splitChar sep s with
  | [ys, ms, ds] =>
    match parseY4F ys, parseMonthF ms, parseDayF ds with
    | some y, some m, some d =>
        if validDMY (y : Int) m d = true then some ⟨(y : Int), m, d⟩ else none
    | _, _, _ => none
  | _ => none

/-- `pd.to_datetime(s, format="%d<sep>%m<sep>%Y")`. -/
def parseDMY4 (sep : Char) (s : Str) : Option SDate :=
  match splitChar sep s with
  | [ds, ms, ys] =>
    match parseDayF ds, parseMonthF ms, parseY4F ys with
    | some d, some m, some y =>
        if validDMY (y : Int) m d = true then some ⟨(y : Int), m, d⟩ else none
    | _, _, _ => none
  | _ => none

def monthNames : List Str :=
  ["January".data, "February".data, "March".data, "April".data, "May".data,
   "June".data, "July".data, "August".data, "September".data, "October".data,
   "November".data, "December".data]

def monthAbbrevs : List Str :=
  ["Jan".data, "Feb".data, "Mar".data, "Apr".data, "May".data, "Jun".data,
   "Jul".data, "Aug".data, "Sep".data, "Oct".data, "Nov".data, "Dec".data]

def monthIndexAux (i : Nat) (tok : Str) : List Str → Option Nat
  | [] => none
  | n :: t => if lowerStr n = lowerStr tok then some i else monthIndexAux (i + 1) tok t

/-- `pd.to_datetime(s, format="%B %d, %Y")` (or `%b` with abbreviated names):
month name (case-insensitive), space, day, comma, space, four-digit year. -/
def parseTextual (names : List Str) (s : Str) : Option SDate :=
  match splitChar ' ' s with
  | [mon, dc, ys] =>
    if dc ≠ [] ∧ dc.getLast? = some ',' then
      match monthIndexAux 1 mon names, parseDayF dc.dropLast, parseY4F ys with
      | some m, some d, some y =>
          if validDMY (y : Int) m d = true then some ⟨(y : Int), m, d⟩ else none
      | _, _, _ => none
    else none
  | _ => none

/-- The ordered four-digit-year format list of `format_date` (source lines 70-73):
`%m/%d/%Y, %m-%d-%Y, %Y-%m-%d, %Y/%m/%d, %d/%m/%Y, %d-%m-%Y, %B %d, %Y,
%b %d, %Y, %m.%d.%Y`; first success wins. -/
def parse4 (s : Str) : Option SDate :=
  firstSome
    [parseMDY4 '/' s, parseMDY4 '-' s, parseYMD4 '-' s, parseYMD4 '/' s,
     parseDMY4 '/' s, parseDMY4 '-' s, parseTextual monthNames s,
     parseTextual monthAbbrevs s, parseMDY4 '.' s]

/-- One two-digit-year format `%m<sep>%d<sep>%y`; returns month, day and the
raw two-digit year.  As with strptime, the resolved date must be a valid
calendar date for the parse to succeed. -/
def parseMDY2 (sep : Char) (s : Str) : Option (Nat × Nat × Nat) :=
  match splitChar sep s with
  | [ms, ds, ys] =>
    match parseMonthF ms, parseDayF ds, parseY2F ys with
    | some m, some d, some yy =>
        if validDMY (resolveY2 yy) m d = true then some (m, d, yy) else none
    | _, _, _ => none
  | _ => none

/-- First of the three two-digit-year patterns `%m/%d/%y, %m-%d-%y, %m.%d.%y`
that parses `s`. -/
def parse2First (s : Str) : Option (Nat × Nat × Nat) :=
  firstSome [parseMDY2 '/' s, parseMDY2 '-' s, parseMDY2 '.' s]

/-- `age and str(age).strip() and str(age).strip().isdigit()` (source line 92). -/
def hasNumericAge : Cell → Bool
  | none => false
  | some a => decide (a ≠ []) && decide (strip a ≠ []) && allDigits (strip a)

/-- Source lines 92-106: the century-adjustment block applied to
`temp_date.year` (already century-resolved by strptime), given the companion
age cell and the current calendar year. -/
def adjustYear (year : Int) (age : Cell) (cy : Int) : Int :=
  if hasNumericAge age = true then
    let ageNum : Int := (digitsToNat (strip (age.getD [])) : Int)
    let birthYearEstimate := cy - ageNum
    if year < 50 then
      (if birthYearEstimate ≥ 2000 then 2000 + (year - 2000) else 1900 + year)
    else 1900 + (year - 1900)
  else
    if year < 50 then 2000 + year else year

/-- Source lines 83-112: the two-digit-year loop.  Each format is parsed, the
year adjusted, and a `pd.Timestamp` constructed; a failure at any point
falls through to the next format. -/
def twoDigitResolve (cy : Int) (age : Cell) (s : Str) : Option SDate :=
  firstSome
    (['/', '-', '.'].map (fun sep =>
      match parseMDY2 sep s with
      | some (m, d, yy) => mkValidDate (adjustYear (resolveY2 yy) age cy) m d
      | none => none))

def pad2 (n : Nat) : Str := [Nat.digitChar (n / 10 % 10), Nat.digitChar (n % 10)]

def pad4 (n : Nat) : Str :=
  [Nat.digitChar (n / 1000 % 10), Nat.digitChar (n / 100 % 10),
   Nat.digitChar (n / 10 % 10), Nat.digitChar (n % 10)]

/-- `date_obj.strftime("%m-%d-%Y")`. -/
def strftime (d : SDate) : Str :=
  pad2 d.month ++ '-' :: (pad2 d.day ++ '-' :: pad4 d.year.toNat)

/-- Source lines 61-123, `OptimizedCSVCleaner.format_date(date_str, age)`.
`ff` is the free-form `pd.to_datetime(_, errors='coerce')` oracle and `cy`
the value of `pd.Timestamp.now().year`. -/
def format_date (ff : Str → Option SDate) (cy : Int) (date_str : Cell) (age : Cell) : Str :=
  match date_str with
  | none => []
  | some s0 =>
    if s0 = [] then [] else
    if strip s0 = [] then [] else
    let s := strip s0
    match parse4 s with
    | some d => strftime d
    | none =>
      match twoDigitResolve cy age s with
      | some d => strftime d
      | none =>
        match ff s with
        | some d => strftime d
        | none => s

/-- Source lines 57-59, `OptimizedCSVCleaner.clean_phone`:
`re.sub(r'\D', '', str(phone)) if pd.notna(phone) and phone else ""`. -/
def clean_phone : Cell → Str
  | none => []
  | some s => if s = [] then [] else s.filter Char.isDigit

/-- A free-form parse oracle that always fails (used for concrete runs whose
date cells never reach the fallback). -/
def ffNone : Str → Option SDate := fun _ => none

/-- Control-flow predicate of `format_date` (source lines 61-115): true exactly
when the cell reaches the best-effort free-form fallback at line 115 -
non-missing, non-empty, non-blank after strip, and neither a four-digit-year
nor a two-digit-year strptime pattern matches (by `twoDigitResolve_eq`, the
two-digit stage succeeds iff `parse2First` does, for every clock and age).
Only on such cells is `pd.to_datetime` - which reads the clock - consulted. -/
def usesFallback (date_str : Cell) : Bool :=
  match date_str with
  | none => false
  | some s0 =>
    if s0 = [] then false else
    if strip s0 = [] then false else
    if (parse4 (strip s0)).isSome then false else
    if (parse2First (strip s0)).isSome then false else true

/-- Clock-indexed free-form oracle family: `pd.to_datetime(_, errors='coerce')`
at a run whose current year is `y`.  dateutil completes missing components of
a yearless string such as `"March 4"` from the current date, so this family
maps it to March 4 of year `y`; everything else is rejected. -/
def ffYearless (y : Int) : Str → Option SDate :=
  fun s => if s = "March 4".data then some ⟨y, 3, 4⟩ else none

/-! ## The tabular record set

Pandas is column-oriented: a `DataFrame` is a row count plus an ordered list
of named columns, each a list of cells.  Well-formedness (`DataFrame.WF`)
says every column has exactly `nrows` cells. -/

structure DataFrame where
  nrows : Nat
  cols : List (String × List Cell)
deriving DecidableEq

def DataFrame.WF (df : DataFrame) : Prop :=
  ∀ c ∈ df.cols, c.2.length = df.nrows

instance : DecidablePred DataFrame.WF := fun df =>
  decidable_of_iff (∀ c ∈ df.cols, c.2.length = df.nrows) Iff.rfl

/-- First column with the given label (`df[name]`). -/
def lookupCol (n : String) : List (String × List Cell) → Option (List Cell)
  | [] => none
  | c :: t => if c.1 = n then some c.2 else lookupCol n t

def getCol (df : DataFrame) (n : String) : Option (List Cell) := lookupCol n df.cols

def colOf (df : DataFrame) (n : String) : List Cell := (getCol df n).getD []

/-- `name in df.columns`. -/
def hasCol (df : DataFrame) (n : String) : Bool := (getCol df n).isSome

def getCellD (df : DataFrame) (n : String) (i : Nat) : Cell := (colOf df n).getD i none

/-- Replace the cells of the first column labelled `n`. -/
def replaceFirst (n : String) (vs : List Cell) : List (String × List Cell) → List (String × List Cell)
  | [] => []
  | c :: t => if c.1 = n then (n, vs) :: t else c :: replaceFirst n vs t

/-- `df[n] = values`: overwrite the column if it exists, else append it. -/
def setColVals (df : DataFrame) (n : String) (vs : List Cell) : DataFrame :=
  if hasCol df n = true then { df with cols := replaceFirst n vs df.cols }
  else { df with cols := df.cols ++ [(n, vs)] }

/-- `df.drop(n, axis=1)`: remove every column labelled `n`. -/
def removeCol (n : String) : List (String × List Cell) → List (String × List Cell)
  | [] => []
  | c :: t => if c.1 = n then removeCol n t else c :: removeCol n t

def dropCol (df : DataFrame) (n : String) : DataFrame :=
  { df with cols := removeCol n df.cols }

/-- Source lines 22-33: the header renaming table. -/
def header_mappings : List (String × String) :=
  [("Badge", "BADGE"), ("First Name", "FIRSTNAME"), ("Middle Name", "MIDDLENAME"),
   ("Last Name", "LASTNAME"), ("Date Of Birth", "BDAY"), ("Age", "AGE"),
   ("Home Facility", "LOCATION"), ("Email", "EMAIL"), ("Do Not Mail", "DO_NOT_MAIL"),
   ("Mobile Phone", "SMS"), ("Line Address", "ADDRESS"), ("City", "CITY"),
   ("State", "STATE"), ("Postal", "ZIP"), ("Country", "COUNTRY"),
   ("Last Visit Date", "LAST_VISIT"), ("Participant Agreement", "PARTICIPANT_AGREEMENT"),
   ("Belay", "BELAY_CERTIFIED"), ("Climbing Experience", "EXPERIENCE_LEVEL"),
   ("Referred By", "REFERRED_BY"), ("How Did You Hear About Us", "HOW_DID_YOU_HEAR"),
   ("Gender", "GENDER"), ("Pronouns", "PRONOUN"), ("Outdoor Aor", "OUTDOOR_AOR"),
   ("Eligible For S1", "ELIGIBLE_S1"), ("Customer Id", "CUSTOMER_ID")]

def lookupStr (n : String) : List (String × String) → Option String
  | [] => none
  | p :: t => if p.1 = n then some p.2 else lookupStr n t

def renameFn (n : String) : String := (lookupStr n header_mappings).getD n

/-- `cleaned.rename(columns=self.header_mappings)`. -/
def renameHeaders (df : DataFrame) : DataFrame :=
  { df with cols := df.cols.map (fun c => (renameFn c.1, c.2)) }

/-- Source lines 36-40: cell value mappings, in dict order (BADGE, LOCATION). -/
def badge_map : List (Str × Str) :=
  [("Staff".data, "STAFF".data), ("Member".data, "MEMBER".data),
   ("Member (frz)".data, "FROZEN".data), ("30-Day Member".data, "PREPAID-30".data),
   ("Day Pass Pack".data, "MULTI_PASS".data)]

def location_map : List (Str × Str) :=
  [("Alexandria".data, "ALX".data), ("Sterling".data, "STR".data), ("Rio".data, "RIO".data)]

def cell_mappings : List (String × List (Str × Str)) :=
  [("BADGE", badge_map), ("LOCATION", location_map)]

/-- Source lines 43-48: interest keyword table, in dict order. -/
def interest_keywords : List (Str × String) :=
  [("Adult Climbing Programs".data, "INTEREST_ADULT"),
   ("Fitness + Yoga".data, "INTEREST_FITNESS"),
   ("Youth Climbing Programs".data, "INTEREST_YOUTH"),
   ("Outdoor Climbing Programs (SR Climbing Guides)".data, "INTEREST_OUTDOOR")]

def date_fields : List String := ["BDAY", "LAST_VISIT"]

def interest_columns : List String :=
  ["INTEREST_YOUTH", "INTEREST_ADULT", "INTEREST_OUTDOOR", "INTEREST_FITNESS"]

/-- Source lines 54-55: the final allow-list, the header-mapping targets
together with the four interest columns. -/
def valid_columns : List String := header_mappings.map Prod.snd ++ interest_columns

def memStr (n : String) : List String → Bool
  | [] => false
  | s :: t => if s = n then true else memStr n t

def validCol (n : String) : Bool := memStr n valid_columns

/-- Substring lookup at the head: `pat` is an initial segment of `l`. -/
def isPrefixB : Str → Str → Bool
  | [], _ => true
  | _ :: _, [] => false
  | a :: as, b :: bs => if a = b then isPrefixB as bs else false

/-- Python `pat in l` (substring containment). -/
def containsSub (l pat : Str) : Bool :=
  match l with
  | [] => isPrefixB pat []
  | _ :: t => if isPrefixB pat l then true else containsSub t pat

/-- Source lines 139-143 applied to one cell: non-empty, non-blank after
strip, and the lowered keyword occurs in the lowered stripped text. -/
def cellMatches (c : Cell) (kw : Str) : Bool :=
  match c with
  | none => false
  | some v =>
    if v = [] then false else
    if strip v = [] then false else
    containsSub (lowerStr (strip v)) (lowerStr kw)

/-- Source line 151 applied to one cell: `.str.lower() == 'yes'`
(NaN compares unequal). -/
def youthYes : Cell → Bool
  | none => false
  | some v => if lowerStr v = "yes".data then true else false

/-- `df[col] = ""` for a marker column: overwrite or append a column of
empty strings. -/
def blankCol (df : DataFrame) (n : String) : DataFrame :=
  setColVals df n (List.replicate df.nrows (some []))

/-- Source lines 130-134: the free-text column is `'Interest'`, or failing
that `'interest'`; nothing else. -/
def findInterestCol (df : DataFrame) : Option String :=
  if hasCol df "Interest" = true then some "Interest"
  else if hasCol df "interest" = true then some "interest"
  else none

/-- Source lines 125-155, `OptimizedCSVCleaner.process_interests`. -/
def process_interests (df : DataFrame) : DataFrame :=
  let df1 := interest_columns.foldl blankCol df
  let df2 :=
    match findInterestCol df1 with
    | some icol =>
      let ivals := colOf df1 icol
      let dfk := interest_keywords.foldl
        (fun d kc =>
          setColVals d kc.2
            (List.zipWith (fun iv tv => if cellMatches iv kc.1 = true then some "YES".data else tv)
              ivals (colOf d kc.2)))
        df1
      dropCol dfk icol
    | none => df1
  if hasCol df2 "Youth Programs Interest" = true then
    let yvals := colOf df2 "Youth Programs Interest"
    let dfy := setColVals df2 "INTEREST_YOUTH"
      (List.zipWith (fun yv tv => if youthYes yv = true then some "YES".data else tv)
        yvals (colOf df2 "INTEREST_YOUTH"))
    dropCol dfy "Youth Programs Interest"
  else df2

/-- `cleaned[col].fillna("").replace("", "GUEST")` per cell. -/
def badgeFill : Cell → Cell
  | none => some "GUEST".data
  | some v => if v = [] then some "GUEST".data else some v

def lookupMap (m : List (Str × Str)) (v : Str) : Option Str :=
  match m with
  | [] => none
  | p :: t => if p.1 = v then some p.2 else lookupMap t v

/-- `cleaned[col].map(mappings).fillna(cleaned[col])` per cell: a hit
replaces the value, a miss (or NaN) keeps it. -/
def mapCell (m : List (Str × Str)) : Cell → Cell
  | none => none
  | some v =>
    match lookupMap m v with
    | some w => some w
    | none => some v

/-- One iteration of the cell-mapping loop (source lines 174-178). -/
def cmSub (cm : String × List (Str × Str)) (df : DataFrame) : DataFrame :=
  if hasCol df cm.1 = true then
    let d2 := if cm.1 = "BADGE" then setColVals df cm.1 ((colOf df cm.1).map badgeFill) else df
    setColVals d2 cm.1 ((colOf d2 cm.1).map (mapCell cm.2))
  else df

def applyCellMappings (df : DataFrame) : DataFrame :=
  cell_mappings.foldl (fun d cm => cmSub cm d) df

/-- Source lines 182-183: `cleaned['SMS'] = cleaned['SMS'].apply(self.clean_phone)`. -/
def smsStage (df : DataFrame) : DataFrame :=
  if hasCol df "SMS" = true then
    setColVals df "SMS" ((colOf df "SMS").map (fun c => some (clean_phone c)))
  else df

/-- One iteration of the date-formatting loop (source lines 187-194): BDAY is
formatted together with the row's AGE cell when an AGE column exists. -/
def dateSub (ff : Str → Option SDate) (cy : Int) (fld : String) (df : DataFrame) : DataFrame :=
  if hasCol df fld = true then
    if fld = "BDAY" ∧ hasCol df "AGE" = true then
      setColVals df fld
        (List.zipWith (fun b a => some (format_date ff cy b a)) (colOf df fld) (colOf df "AGE"))
    else
      setColVals df fld ((colOf df fld).map (fun b => some (format_date ff cy b none)))
  else df

def dateStage (ff : Str → Option SDate) (cy : Int) (df : DataFrame) : DataFrame :=
  date_fields.foldl (fun d fld => dateSub ff cy fld d) df

/-- Source lines 196-198: keep only allow-listed columns, in order. -/
def keepValid : List (String × List Cell) → List (String × List Cell)
  | [] => []
  | c :: t => if validCol c.1 = true then c :: keepValid t else keepValid t

def projectCols (df : DataFrame) : DataFrame := { df with cols := keepValid df.cols }

/-- Source lines 157-203, `OptimizedCSVCleaner.clean_dataframe`: the five
stages in order. -/
def clean_dataframe (ff : Str → Option SDate) (cy : Int) (df : DataFrame) : DataFrame :=
  projectCols (dateStage ff cy (smsStage (applyCellMappings (process_interests (renameHeaders df)))))

/-- Re-initialize the four interest columns to the empty string (what the
second run's `process_interests` amounts to on canonical input). -/
def blankInterests (df : DataFrame) : DataFrame := interest_columns.foldl blankCol df

def lookupKw (tgt : String) : List (Str × String) → Str
  | [] => []
  | kc :: t => if kc.2 = tgt then kc.1 else lookupKw tgt t

/-- The keyword phrase feeding a given interest column. -/
def keywordFor (tgt : String) : Str := lookupKw tgt interest_keywords

/-- Whether the sources of the input table mark interest column `tgt` on row
`i`: the free-text column contains the column's keyword, or (for
INTEREST_YOUTH) the "Youth Programs Interest" column says yes. -/
def interestMark (df : DataFrame) (i : Nat) (tgt : String) : Bool :=
  (match findInterestCol df with
   | some ic => cellMatches (getCellD df ic i) (keywordFor tgt)
   | none => false) ||
  (if tgt = "INTEREST_YOUTH" then
     (if hasCol df "Youth Programs Interest" = true then
        youthYes (getCellD df "Youth Programs Interest" i) else false)
   else false)

/-- Fixture: the spec's interest-extraction example cell on row 0 and a row
with no interest text on row 1. -/
def interestExampleDf : DataFrame :=
  ⟨2, [("Interest", [some "Adult Climbing Programs, Fitness + Yoga".data, none])]⟩

/-- Fixture: a table carrying both an exactly-named free-text column and an
upper-cased one. -/
def interestUpperDf : DataFrame :=
  ⟨1, [("Interest", [some "x".data]), ("INTEREST", [some "Fitness + Yoga".data])]⟩

/-- Output dates of the free-form oracle are real calendar dates with
four-digit years, as pandas `Timestamp`s are (range 1677-2262). -/
def ValidFreeform (ff : Str → Option SDate) : Prop :=
  ∀ s d, ff s = some d → validDMY d.year d.month d.day = true ∧ 0 ≤ d.year ∧ d.year ≤ 9999


/-! ## Whitespace and `strip` lemmas -/

theorem dropWhile_dropWhile (p : Char → Bool) (l : Str) :
    List.dropWhile p (List.dropWhile p l) = List.dropWhile p l := by
  induction l with
  | nil => rfl
  | cons a t ih =>
    by_cases h : p a = true
    · simp [List.dropWhile_cons, h, ih]
    · simp [List.dropWhile_cons, h]

theorem dropWhile_head_false {p : Char → Bool} {l : Str} {a : Char} {t : Str}
    (h : List.dropWhile p l = a :: t) : p a = false := by
  induction l with
  | nil => simp at h
  | cons b u ih =>
    rw [List.dropWhile_cons] at h
    by_cases hb : p b = true
    · rw [if_pos hb] at h; exact ih h
    · rw [if_neg hb] at h
      cases h
      simpa using hb

theorem dropWhile_all_false {p : Char → Bool} {l : Str} (h : ∀ a ∈ l, p a = false) :
    List.dropWhile p l = l := by
  induction l with
  | nil => rfl
  | cons b u ih =>
    simp [List.dropWhile_cons, h b (List.mem_cons_self b u),
      ih (fun a ha => h a (List.mem_cons_of_mem b ha))]

theorem strip_all_false {l : Str} (h : ∀ a ∈ l, a.isWhitespace = false) : strip l = l := by
  unfold strip
  rw [dropWhile_all_false h, dropWhile_all_false (fun a ha => h a (List.mem_reverse.1 ha)),
    List.reverse_reverse]

theorem dropWhile_suffix_of (p : Char → Bool) (l : Str) : ∃ u, u ++ List.dropWhile p l = l := by
  induction l with
  | nil => exact ⟨[], rfl⟩
  | cons a t ih =>
    by_cases h : p a = true
    · obtain ⟨u, hu⟩ := ih
      exact ⟨a :: u, by simp [List.dropWhile_cons, h, hu]⟩
    · exact ⟨[], by simp [List.dropWhile_cons, h]⟩

theorem dropTrail_is_prefixed (l : Str) : ∃ u, dropTrail l ++ u = l := by
  obtain ⟨v, hv⟩ := dropWhile_suffix_of Char.isWhitespace l.reverse
  refine ⟨v.reverse, ?_⟩
  have h2 := congrArg List.reverse hv
  simpa [dropTrail, List.reverse_append] using h2

theorem dropTrail_dropTrail (l : Str) : dropTrail (dropTrail l) = dropTrail l := by
  unfold dropTrail
  rw [List.reverse_reverse, dropWhile_dropWhile]

theorem dropTrail_nil_or_head (a : Char) (t : Str) :
    dropTrail (a :: t) = [] ∨ ∃ t2, dropTrail (a :: t) = a :: t2 := by
  obtain ⟨u, hu⟩ := dropTrail_is_prefixed (a :: t)
  cases h : dropTrail (a :: t) with
  | nil => exact Or.inl rfl
  | cons b t2 =>
    rw [h, List.cons_append] at hu
    injection hu with hb hrest
    exact Or.inr ⟨t2, by rw [hb]⟩

theorem dropWhile_dropTrail {m : Str}
    (h : ∀ a t, m = a :: t → Char.isWhitespace a = false) :
    List.dropWhile Char.isWhitespace (dropTrail m) = dropTrail m := by
  cases hm : m with
  | nil => simp [dropTrail]
  | cons a t =>
    rcases dropTrail_nil_or_head a t with h0 | ⟨t2, h2⟩
    · rw [h0]; rfl
    · rw [h2, List.dropWhile_cons, h a t hm]
      simp

theorem strip_eq_dropTrail (l : Str) :
    strip l = dropTrail (List.dropWhile Char.isWhitespace l) := rfl

theorem strip_idem (l : Str) : strip (strip l) = strip l := by
  rw [strip_eq_dropTrail l, strip_eq_dropTrail]
  rw [dropWhile_dropTrail (fun a t hm => dropWhile_head_false hm), dropTrail_dropTrail]

/-! ## Digit-character lemmas -/

theorem digitChar_facts : ∀ k, k < 10 → (Nat.digitChar k).isDigit = true ∧
    Nat.digitChar k ≠ '-' ∧ Nat.digitChar k ≠ '/' ∧ Nat.digitChar k ≠ '.' ∧
    (Nat.digitChar k).isWhitespace = false ∧ (Nat.digitChar k).toNat - 48 = k := by decide

theorem isDigit_toNat {c : Char} (h : c.isDigit = true) : 48 ≤ c.toNat ∧ c.toNat ≤ 57 := by
  simp only [Char.isDigit, Bool.and_eq_true, decide_eq_true_eq, ge_iff_le] at h
  exact ⟨h.1, h.2⟩

theorem digitsToNat_lt {l : Str} (h : allDigits l = true) : digitsToNat l < 10 ^ l.length := by
  induction l with
  | nil => simp [digitsToNat]
  | cons c t ih =>
    simp only [allDigits, List.all_cons, Bool.and_eq_true] at h
    have hc := isDigit_toNat h.1
    have ht := ih h.2
    have hx : c.toNat - 48 ≤ 9 := by omega
    have hP : 0 < 10 ^ t.length := Nat.pos_pow_of_pos _ (by norm_num)
    simp only [digitsToNat, List.length_cons]
    calc (c.toNat - 48) * 10 ^ t.length + digitsToNat t
        < (c.toNat - 48) * 10 ^ t.length + 10 ^ t.length := by omega
      _ = (c.toNat - 48 + 1) * 10 ^ t.length := by ring
      _ ≤ 10 * 10 ^ t.length := Nat.mul_le_mul_right _ (by omega)
      _ = 10 ^ (t.length + 1) := by ring

theorem digitsToNat_pad2 {n : Nat} (h : n < 100) : digitsToNat (pad2 n) = n := by
  have h1 := (digitChar_facts (n / 10 % 10) (by omega)).2.2.2.2.2
  have h2 := (digitChar_facts (n % 10) (by omega)).2.2.2.2.2
  simp only [pad2, digitsToNat, List.length_cons, List.length_nil, h1, h2]
  simp only [pow_one, pow_zero]
  omega

theorem digitsToNat_pad4 {n : Nat} (h : n < 10000) : digitsToNat (pad4 n) = n := by
  have h1 := (digitChar_facts (n / 1000 % 10) (by omega)).2.2.2.2.2
  have h2 := (digitChar_facts (n / 100 % 10) (by omega)).2.2.2.2.2
  have h3 := (digitChar_facts (n / 10 % 10) (by omega)).2.2.2.2.2
  have h4 := (digitChar_facts (n % 10) (by omega)).2.2.2.2.2
  simp only [pad4, digitsToNat, List.length_cons, List.length_nil, h1, h2, h3, h4]
  norm_num
  omega

theorem allDigits_pad2 (n : Nat) : allDigits (pad2 n) = true := by
  simp [allDigits, pad2, (digitChar_facts (n / 10 % 10) (by omega)).1,
    (digitChar_facts (n % 10) (by omega)).1]

theorem allDigits_pad4 (n : Nat) : allDigits (pad4 n) = true := by
  simp [allDigits, pad4, (digitChar_facts (n / 1000 % 10) (by omega)).1,
    (digitChar_facts (n / 100 % 10) (by omega)).1,
    (digitChar_facts (n / 10 % 10) (by omega)).1,
    (digitChar_facts (n % 10) (by omega)).1]

theorem pad2_digits {a : Char} {n : Nat} (h : a ∈ pad2 n) : a.isDigit = true := by
  simp only [pad2, List.mem_cons, List.not_mem_nil, or_false] at h
  rcases h with h | h <;> subst h <;> exact (digitChar_facts _ (by omega)).1

theorem pad4_digits {a : Char} {n : Nat} (h : a ∈ pad4 n) : a.isDigit = true := by
  simp only [pad4, List.mem_cons, List.not_mem_nil, or_false] at h
  rcases h with h | h | h | h <;> subst h <;> exact (digitChar_facts _ (by omega)).1

/-! ## `splitChar` and `strftime` round-trip lemmas -/

theorem splitChar_not_mem {sep : Char} {l : Str} (h : sep ∉ l) : splitChar sep l = [l] := by
  induction l with
  | nil => rfl
  | cons a t ih =>
    have ha : ¬ a = sep := fun e => h (by simp [e])
    have iht := ih (fun hm => h (List.mem_cons_of_mem a hm))
    simp only [splitChar, if_neg ha, iht]

theorem splitChar_cons_of {sep a : Char} {t r : Str} {rs : List Str} (ha : ¬ a = sep)
    (h : splitChar sep t = r :: rs) : splitChar sep (a :: t) = (a :: r) :: rs := by
  simp only [splitChar, if_neg ha, h]

theorem splitChar_append {sep : Char} {l₁ l₂ : Str} (h : sep ∉ l₁) :
    splitChar sep (l₁ ++ sep :: l₂) = l₁ :: splitChar sep l₂ := by
  induction l₁ with
  | nil => simp [splitChar]
  | cons a t ih =>
    have ha : ¬ a = sep := fun e => h (by simp [e])
    have iht := ih (fun hm => h (List.mem_cons_of_mem a hm))
    rw [List.cons_append, splitChar_cons_of ha iht]

theorem mem_strftime {c : Char} {d : SDate} (h : c ∈ strftime d) :
    c.isDigit = true ∨ c = '-' := by
  simp only [strftime, List.mem_append, List.mem_cons] at h
  rcases h with h | h | h | h | h
  · exact Or.inl (pad2_digits h)
  · exact Or.inr h
  · exact Or.inl (pad2_digits h)
  · exact Or.inr h
  · exact Or.inl (pad4_digits h)

theorem strftime_ne_nil (d : SDate) : strftime d ≠ [] := by
  simp [strftime, pad2]

theorem isDigit_not_ws {c : Char} (h : c.isDigit = true) : c.isWhitespace = false := by
  obtain ⟨h1, h2⟩ := isDigit_toNat h
  cases hb : c.isWhitespace with
  | false => rfl
  | true =>
    exfalso
    simp only [Char.isWhitespace, Bool.or_eq_true, decide_eq_true_eq] at hb
    rcases hb with ((h9 | h9) | h9) | h9 <;> subst h9 <;> revert h1 <;> decide

theorem strip_strftime (d : SDate) : strip (strftime d) = strftime d := by
  apply strip_all_false
  intro a ha
  rcases mem_strftime ha with h | h
  · exact isDigit_not_ws h
  · subst h; decide

theorem parseMonthF_pad2 {m : Nat} (h1 : 1 ≤ m) (h2 : m ≤ 12) :
    parseMonthF (pad2 m) = some m := by
  have hd := digitsToNat_pad2 (show m < 100 by omega)
  unfold parseMonthF
  rw [if_pos ⟨by simp [pad2], by simp [pad2], allDigits_pad2 m,
    by rw [hd]; omega, by rw [hd]; omega⟩, hd]

theorem parseDayF_pad2 {n : Nat} (h1 : 1 ≤ n) (h2 : n ≤ 31) :
    parseDayF (pad2 n) = some n := by
  have hd := digitsToNat_pad2 (show n < 100 by omega)
  unfold parseDayF
  rw [if_pos ⟨by simp [pad2], by simp [pad2], allDigits_pad2 n,
    by rw [hd]; omega, by rw [hd]; omega⟩, hd]

theorem parseY4F_pad4 {n : Nat} (h : n < 10000) : parseY4F (pad4 n) = some n := by
  have hd := digitsToNat_pad4 h
  unfold parseY4F
  rw [if_pos ⟨by simp [pad4], allDigits_pad4 n⟩, hd]

theorem validDMY_bounds {y : Int} {m d : Nat} (h : validDMY y m d = true) :
    1 ≤ m ∧ m ≤ 12 ∧ 1 ≤ d ∧ d ≤ 31 := by
  have hdm : daysInMonth y m ≤ 31 := by
    unfold daysInMonth
    split
    · split <;> omega
    · split <;> omega
  simp only [validDMY, Bool.and_eq_true, decide_eq_true_eq] at h
  exact ⟨h.1.1.1, h.1.1.2, h.1.2, by omega⟩

theorem pad2_not_mem_dash (n : Nat) : '-' ∉ pad2 n := by
  intro h
  have := pad2_digits h
  simp at this

theorem pad4_not_mem_dash (n : Nat) : '-' ∉ pad4 n := by
  intro h
  have := pad4_digits h
  simp at this

theorem splitChar_strftime (d : SDate) :
    splitChar '-' (strftime d) = [pad2 d.month, pad2 d.day, pad4 d.year.toNat] := by
  unfold strftime
  rw [splitChar_append (pad2_not_mem_dash _), splitChar_append (pad2_not_mem_dash _),
    splitChar_not_mem (pad4_not_mem_dash _)]

theorem slash_not_mem_strftime (d : SDate) : '/' ∉ strftime d := by
  intro h
  rcases mem_strftime h with h1 | h1 <;> simp at h1

theorem parse4_strftime {d : SDate} (hv : validDMY d.year d.month d.day = true)
    (hy0 : 0 ≤ d.year) (hy : d.year ≤ 9999) : parse4 (strftime d) = some d := by
  obtain ⟨hm1, hm2, hd1, hd2⟩ := validDMY_bounds hv
  have h1 : parseMDY4 '/' (strftime d) = none := by
    unfold parseMDY4
    rw [splitChar_not_mem (slash_not_mem_strftime d)]
  have hyz : ((d.year.toNat : Nat) : Int) = d.year := Int.toNat_of_nonneg hy0
  have h2 : parseMDY4 '-' (strftime d) = some d := by
    simp only [parseMDY4, splitChar_strftime d, parseMonthF_pad2 hm1 hm2,
      parseDayF_pad2 hd1 hd2, parseY4F_pad4 (show d.year.toNat < 10000 by omega), hyz,
      if_pos hv]
  unfold parse4
  rw [h1, h2]
  rfl

/-! ## Soundness of the parsers and the two-digit-year characterization -/

theorem parseY2F_le {l : Str} {yy : Nat} (h : parseY2F l = some yy) : yy ≤ 99 := by
  unfold parseY2F at h
  by_cases hc : l.length = 2 ∧ allDigits l = true
  · rw [if_pos hc] at h
    injection h with h
    subst h
    have hb := digitsToNat_lt hc.2
    rw [hc.1] at hb
    norm_num at hb
    omega
  · rw [if_neg hc] at h
    exact absurd h (by simp)

theorem parseY4F_le {l : Str} {y : Nat} (h : parseY4F l = some y) : y ≤ 9999 := by
  unfold parseY4F at h
  by_cases hc : l.length = 4 ∧ allDigits l = true
  · rw [if_pos hc] at h
    injection h with h
    subst h
    have hb := digitsToNat_lt hc.2
    rw [hc.1] at hb
    norm_num at hb
    omega
  · rw [if_neg hc] at h
    exact absurd h (by simp)

theorem resolveY2_bounds {yy : Nat} (h : yy ≤ 99) :
    1969 ≤ resolveY2 yy ∧ resolveY2 yy ≤ 2068 := by
  unfold resolveY2
  split <;> omega

theorem adjustYear_resolved {year : Int} (h : 50 ≤ year) (age : Cell) (cy : Int) :
    adjustYear year age cy = year := by
  unfold adjustYear
  split
  · simp only [if_neg (show ¬ year < 50 by omega)]
    omega
  · simp only [if_neg (show ¬ year < 50 by omega)]

theorem parseMDY2_sound {sep : Char} {s : Str} {m d yy : Nat}
    (h : parseMDY2 sep s = some (m, d, yy)) :
    validDMY (resolveY2 yy) m d = true ∧ yy ≤ 99 := by
  unfold parseMDY2 at h
  split at h
  · split at h
    · rename_i hm hd hy
      split at h
      · rename_i hv
        injection h with h2
        cases h2
        exact ⟨hv, parseY2F_le hy⟩
      · exact absurd h (by simp)
    · exact absurd h (by simp)
  · exact absurd h (by simp)

theorem twoDigitSub_eq (sep : Char) (s : Str) (age : Cell) (cy : Int) :
    (match parseMDY2 sep s with
     | some (m, d, yy) => mkValidDate (adjustYear (resolveY2 yy) age cy) m d
     | none => none) =
    (parseMDY2 sep s).map (fun t => SDate.mk (resolveY2 t.2.2) t.1 t.2.1) := by
  cases hp : parseMDY2 sep s with
  | none => rfl
  | some t =>
    obtain ⟨m, d, yy⟩ := t
    obtain ⟨hv, hy⟩ := parseMDY2_sound hp
    have h50 : (50 : Int) ≤ resolveY2 yy := by
      have := (resolveY2_bounds hy).1
      omega
    simp only [Option.map_some']
    rw [adjustYear_resolved h50 age cy]
    unfold mkValidDate
    rw [if_pos hv]

theorem firstSome_map3 {α β : Type} (g : α → β) (o1 o2 o3 : Option α) :
    firstSome [o1.map g, o2.map g, o3.map g] = (firstSome [o1, o2, o3]).map g := by
  cases o1 <;> cases o2 <;> cases o3 <;> rfl

/-- The whole two-digit-year loop is the first two-digit parse with strptime's
own century resolution: the age and clock adjustments cancel out, because the
guard `year < 50` reads the already-resolved year 1969-2068. -/
theorem twoDigitResolve_eq (cy : Int) (age : Cell) (s : Str) :
    twoDigitResolve cy age s =
      (parse2First s).map (fun t => SDate.mk (resolveY2 t.2.2) t.1 t.2.1) := by
  unfold twoDigitResolve parse2First
  simp only [List.map_cons, List.map_nil]
  rw [twoDigitSub_eq, twoDigitSub_eq, twoDigitSub_eq]
  exact firstSome_map3 _ _ _ _

theorem firstSome_eq_some {α : Type} {l : List (Option α)} {x : α}
    (h : firstSome l = some x) : some x ∈ l := by
  induction l with
  | nil => simp [firstSome] at h
  | cons o t ih =>
    cases o with
    | none => exact List.mem_cons_of_mem _ (ih h)
    | some y =>
      rw [firstSome] at h
      exact List.mem_cons.2 (Or.inl h.symm)

theorem parseMDY4_sound {sep : Char} {s : Str} {d : SDate} (h : parseMDY4 sep s = some d) :
    validDMY d.year d.month d.day = true ∧ 0 ≤ d.year ∧ d.year ≤ 9999 := by
  unfold parseMDY4 at h
  split at h
  · split at h
    · rename_i hm hd hy
      split at h
      · rename_i hv
        injection h with h2
        subst h2
        refine ⟨hv, by positivity, ?_⟩
        have := parseY4F_le hy
        simp only []
        omega
      · exact absurd h (by simp)
    · exact absurd h (by simp)
  · exact absurd h (by simp)

theorem parseYMD4_sound {sep : Char} {s : Str} {d : SDate} (h : parseYMD4 sep s = some d) :
    validDMY d.year d.month d.day = true ∧ 0 ≤ d.year ∧ d.year ≤ 9999 := by
  unfold parseYMD4 at h
  split at h
  · split at h
    · rename_i hy hm hd
      split at h
      · rename_i hv
        injection h with h2
        subst h2
        refine ⟨hv, by positivity, ?_⟩
        have := parseY4F_le hy
        simp only []
        omega
      · exact absurd h (by simp)
    · exact absurd h (by simp)
  · exact absurd h (by simp)

theorem parseDMY4_sound {sep : Char} {s : Str} {d : SDate} (h : parseDMY4 sep s = some d) :
    validDMY d.year d.month d.day = true ∧ 0 ≤ d.year ∧ d.year ≤ 9999 := by
  unfold parseDMY4 at h
  split at h
  · split at h
    · rename_i hd hm hy
      split at h
      · rename_i hv
        injection h with h2
        subst h2
        refine ⟨hv, by positivity, ?_⟩
        have := parseY4F_le hy
        simp only []
        omega
      · exact absurd h (by simp)
    · exact absurd h (by simp)
  · exact absurd h (by simp)

theorem parseTextual_sound {names : List Str} {s : Str} {d : SDate}
    (h : parseTextual names s = some d) :
    validDMY d.year d.month d.day = true ∧ 0 ≤ d.year ∧ d.year ≤ 9999 := by
  unfold parseTextual at h
  split at h
  · split at h
    · split at h
      · rename_i hm hd hy
        split at h
        · rename_i hv
          injection h with h2
          subst h2
          refine ⟨hv, by positivity, ?_⟩
          have := parseY4F_le hy
          simp only []
          omega
        · exact absurd h (by simp)
      · exact absurd h (by simp)
    · exact absurd h (by simp)
  · exact absurd h (by simp)

theorem parse4_sound {s : Str} {d : SDate} (h : parse4 s = some d) :
    validDMY d.year d.month d.day = true ∧ 0 ≤ d.year ∧ d.year ≤ 9999 := by
  unfold parse4 at h
  have hm := firstSome_eq_some h
  simp only [List.mem_cons, List.not_mem_nil, or_false] at hm
  rcases hm with h1 | h1 | h1 | h1 | h1 | h1 | h1 | h1 | h1
  · exact parseMDY4_sound h1.symm
  · exact parseMDY4_sound h1.symm
  · exact parseYMD4_sound h1.symm
  · exact parseYMD4_sound h1.symm
  · exact parseDMY4_sound h1.symm
  · exact parseDMY4_sound h1.symm
  · exact parseTextual_sound h1.symm
  · exact parseTextual_sound h1.symm
  · exact parseMDY4_sound h1.symm

theorem parse2First_sound {s : Str} {m d yy : Nat}
    (h : parse2First s = some (m, d, yy)) :
    validDMY (resolveY2 yy) m d = true ∧ yy ≤ 99 := by
  unfold parse2First at h
  have hm := firstSome_eq_some h
  simp only [List.mem_cons, List.not_mem_nil, or_false] at hm
  rcases hm with h1 | h1 | h1 <;> exact parseMDY2_sound h1.symm

/-! ## `format_date` evaluation lemmas -/

theorem format_date_none (ff : Str → Option SDate) (cy : Int) (age : Cell) :
    format_date ff cy none age = [] := rfl

theorem format_date_nil (ff : Str → Option SDate) (cy : Int) (age : Cell) :
    format_date ff cy (some []) age = [] := by
  simp [format_date]

theorem format_date_blank {s0 : Str} (h : strip s0 = []) (ff : Str → Option SDate)
    (cy : Int) (age : Cell) : format_date ff cy (some s0) age = [] := by
  by_cases h0 : s0 = []
  · subst h0; exact format_date_nil ff cy age
  · simp [format_date, if_neg h0, h]

theorem format_date_parse4 {ff : Str → Option SDate} {cy : Int} {s0 : Str} {age : Cell}
    {d : SDate} (h0 : s0 ≠ []) (h1 : strip s0 ≠ []) (hp : parse4 (strip s0) = some d) :
    format_date ff cy (some s0) age = strftime d := by
  simp only [format_date, if_neg h0, if_neg h1, hp]

theorem format_date_parse2 {ff : Str → Option SDate} {cy : Int} {s0 : Str} {age : Cell}
    {d : SDate} (h0 : s0 ≠ []) (h1 : strip s0 ≠ []) (hp : parse4 (strip s0) = none)
    (h2 : twoDigitResolve cy age (strip s0) = some d) :
    format_date ff cy (some s0) age = strftime d := by
  simp only [format_date, if_neg h0, if_neg h1, hp, h2]

theorem format_date_ff {ff : Str → Option SDate} {cy : Int} {s0 : Str} {age : Cell}
    {d : SDate} (h0 : s0 ≠ []) (h1 : strip s0 ≠ []) (hp : parse4 (strip s0) = none)
    (h2 : twoDigitResolve cy age (strip s0) = none) (h3 : ff (strip s0) = some d) :
    format_date ff cy (some s0) age = strftime d := by
  simp only [format_date, if_neg h0, if_neg h1, hp, h2, h3]

theorem format_date_fail {ff : Str → Option SDate} {cy : Int} {s0 : Str} {age : Cell}
    (h0 : s0 ≠ []) (h1 : strip s0 ≠ []) (hp : parse4 (strip s0) = none)
    (h2 : twoDigitResolve cy age (strip s0) = none) (h3 : ff (strip s0) = none) :
    format_date ff cy (some s0) age = strip s0 := by
  simp only [format_date, if_neg h0, if_neg h1, hp, h2, h3]

/-- Feeding a formatted date back into `format_date` returns it unchanged:
the second format of the four-digit list re-parses `strftime` output. -/
theorem format_date_strftime {d : SDate} (hv : validDMY d.year d.month d.day = true)
    (hy0 : 0 ≤ d.year) (hy : d.year ≤ 9999) (ff : Str → Option SDate) (cy : Int)
    (age : Cell) : format_date ff cy (some (strftime d)) age = strftime d := by
  have h0 := strftime_ne_nil d
  have h1 : strip (strftime d) ≠ [] := by rw [strip_strftime]; exact h0
  have hp : parse4 (strip (strftime d)) = some d := by
    rw [strip_strftime]; exact parse4_strftime hv hy0 hy
  exact format_date_parse4 h0 h1 hp

/-- The clock value (and the age cell) never influence `format_date`. -/
theorem format_date_indep (ff : Str → Option SDate) (cy cy2 : Int) (ds : Cell)
    (age age2 : Cell) : format_date ff cy ds age = format_date ff cy2 ds age2 := by
  cases ds with
  | none => rfl
  | some s0 =>
    by_cases h0 : s0 = []
    · subst h0; rw [format_date_nil, format_date_nil]
    · by_cases h1 : strip s0 = []
      · rw [format_date_blank h1, format_date_blank h1]
      · cases hp : parse4 (strip s0) with
        | some d => rw [format_date_parse4 h0 h1 hp, format_date_parse4 h0 h1 hp]
        | none =>
          have h2 : ∀ cy3 age3, twoDigitResolve cy3 age3 (strip s0) =
              (parse2First (strip s0)).map (fun t => SDate.mk (resolveY2 t.2.2) t.1 t.2.1) :=
            fun cy3 age3 => twoDigitResolve_eq cy3 age3 (strip s0)
          cases hq : parse2First (strip s0) with
          | some t =>
            have e1 : twoDigitResolve cy age (strip s0) =
                some (SDate.mk (resolveY2 t.2.2) t.1 t.2.1) := by rw [h2, hq]; rfl
            have e2 : twoDigitResolve cy2 age2 (strip s0) =
                some (SDate.mk (resolveY2 t.2.2) t.1 t.2.1) := by rw [h2, hq]; rfl
            rw [format_date_parse2 h0 h1 hp e1, format_date_parse2 h0 h1 hp e2]
          | none =>
            have e1 : twoDigitResolve cy age (strip s0) = none := by rw [h2, hq]; rfl
            have e2 : twoDigitResolve cy2 age2 (strip s0) = none := by rw [h2, hq]; rfl
            cases hf : ff (strip s0) with
            | some d => rw [format_date_ff h0 h1 hp e1 hf, format_date_ff h0 h1 hp e2 hf]
            | none => rw [format_date_fail h0 h1 hp e1 hf, format_date_fail h0 h1 hp e2 hf]

/-- Applying `format_date` to its own output is the identity (for a free-form
oracle producing real dates): the per-cell idempotence of date cleaning. -/
theorem format_date_idem {ff : Str → Option SDate} (hff : ValidFreeform ff) (cy : Int)
    (b : Cell) (a a2 : Cell) :
    format_date ff cy (some (format_date ff cy b a)) a2 = format_date ff cy b a := by
  cases b with
  | none => rw [format_date_none, format_date_nil]
  | some s0 =>
    by_cases h0 : s0 = []
    · subst h0; rw [format_date_nil, format_date_nil]
    · by_cases h1 : strip s0 = []
      · rw [format_date_blank h1, format_date_nil]
      · cases hp : parse4 (strip s0) with
        | some d =>
          rw [format_date_parse4 h0 h1 hp]
          obtain ⟨hv, hz, hb⟩ := parse4_sound hp
          exact format_date_strftime hv hz hb ff cy a2
        | none =>
          cases hq : twoDigitResolve cy a (strip s0) with
          | some d =>
            rw [format_date_parse2 h0 h1 hp hq]
            rw [twoDigitResolve_eq] at hq
            cases hqf : parse2First (strip s0) with
            | none => rw [hqf] at hq; exact absurd hq (by simp)
            | some t =>
              rw [hqf] at hq
              simp only [Option.map_some'] at hq
              injection hq with hq
              obtain ⟨m, dd, yy⟩ := t
              obtain ⟨hv, hy⟩ := parse2First_sound hqf
              obtain ⟨hr1, hr2⟩ := resolveY2_bounds hy
              subst hq
              exact format_date_strftime hv (by simp only []; omega) (by simp only []; omega) ff cy a2
          | none =>
            cases hf : ff (strip s0) with
            | some d =>
              rw [format_date_ff h0 h1 hp hq hf]
              obtain ⟨hv, hz, hb⟩ := hff _ _ hf
              exact format_date_strftime hv hz hb ff cy a2
            | none =>
              rw [format_date_fail h0 h1 hp hq hf]
              have hs1 : strip s0 ≠ [] := h1
              have hss : strip (strip s0) = strip s0 := strip_idem s0
              have hp2 : parse4 (strip (strip s0)) = none := by rw [hss]; exact hp
              have hq2 : twoDigitResolve cy a2 (strip (strip s0)) = none := by
                rw [hss, twoDigitResolve_eq]
                rw [twoDigitResolve_eq] at hq
                rcases hqf : parse2First (strip s0) with _ | t
                · rfl
                · rw [hqf] at hq; exact absurd hq (by simp)
              have hf2 : ff (strip (strip s0)) = none := by rw [hss]; exact hf
              rw [format_date_fail h1 (by rw [hss]; exact h1) hp2 hq2 hf2, hss]

/-! ## Shared two-digit-year helper -/

theorem parse2First_nil : parse2First [] = none := rfl

theorem parse2First_ne_nil {s : Str} {t : Nat × Nat × Nat} (h : parse2First s = some t) :
    s ≠ [] := by
  intro e
  subst e
  rw [parse2First_nil] at h
  exact absurd h (by simp)

/-- On a cell that misses every four-digit pattern and hits a two-digit
pattern, `format_date` outputs the date with strptime's own century
resolution, whatever the age cell and clock are. -/
theorem format_date_two_digit (ff : Str → Option SDate) (cy : Int) (age : Cell)
    {s : Str} {m d yy : Nat} (hs : strip s = s) (h4 : parse4 s = none)
    (h2 : parse2First s = some (m, d, yy)) :
    format_date ff cy (some s) age = strftime ⟨resolveY2 yy, m, d⟩ := by
  have h0 : s ≠ [] := parse2First_ne_nil h2
  have h1 : strip s ≠ [] := by rw [hs]; exact h0
  have h4s : parse4 (strip s) = none := by rw [hs]; exact h4
  have h2s : twoDigitResolve cy age (strip s) = some ⟨resolveY2 yy, m, d⟩ := by
    rw [hs, twoDigitResolve_eq, h2]
    rfl
  exact format_date_parse2 h0 h1 h4s h2s

/-- C1 counterexample: the date cell `"03/04/55"` has raw two-digit year 55
and a purely numeric companion age `"30"`, so the claim demands century
1900 (output `03-04-1955`); the code outputs `03-04-2055`, because the
`year < 50` comparison reads the already-resolved year 2055. -/
theorem spec_C1_counterexample :
    hasNumericAge (some "30".data) = true ∧
    parse4 "03/04/55".data = none ∧
    parse2First "03/04/55".data = some (3, 4, 55) ∧
    format_date ffNone 2025 (some "03/04/55".data) (some "30".data) = "03-04-2055".data ∧
    "03-04-2055".data ≠ "03-04-1955".data :=
  ⟨by decide, by decide, by decide, by decide, by decide⟩

/-- C1 (amended): for a date cell matching a two-digit-year pattern (and no
four-digit pattern), the resolved century is always the pattern's own
pivot - `2000+yy` for raw years 00-68 and `1900+yy` for 69-99 - regardless
of the age value and of the current calendar year; the estimated-birth-year
comparison never changes the result. -/
theorem spec_C1_century_resolution (ff : Str → Option SDate) (cy : Int) (age : Cell)
    {s : Str} {m d yy : Nat} (hs : strip s = s) (h4 : parse4 s = none)
    (h2 : parse2First s = some (m, d, yy)) :
    format_date ff cy (some s) age =
      strftime ⟨(if yy ≤ 68 then 2000 + (yy : Int) else 1900 + (yy : Int)), m, d⟩ :=
  format_date_two_digit ff cy age hs h4 h2

/-- C1 witness: `"03/04/05"` with age `"40"` in year 2025 (estimated birth
year 1985, below 2000) still resolves to 2005. -/
theorem spec_C1_century_resolution_witness :
    strip "03/04/05".data = "03/04/05".data ∧
    parse4 "03/04/05".data = none ∧
    parse2First "03/04/05".data = some (3, 4, 5) ∧
    format_date ffNone 2025 (some "03/04/05".data) (some "40".data) =
      strftime ⟨(if 5 ≤ 68 then 2000 + (5 : Int) else 1900 + (5 : Int)), 3, 4⟩ ∧
    format_date ffNone 2025 (some "03/04/05".data) (some "40".data) = "03-04-2005".data :=
  ⟨by decide, by decide, by decide,
    spec_C1_century_resolution ffNone 2025 (some "40".data) (by decide) (by decide) (by decide),
    by decide⟩

/-- C7: with no usable age (missing or not purely numeric), a raw two-digit
year below 50 resolves to `2000+yy`, and a raw two-digit year of 50 and
above falls back to the two-digit pattern's own century assumption
(`resolveY2`, i.e. 2000s up to 68 and 1900s from 69). -/
theorem spec_C7_no_age_century (ff : Str → Option SDate) (cy : Int) (age : Cell)
    {s : Str} {m d yy : Nat} (hage : hasNumericAge age = false) (hs : strip s = s)
    (h4 : parse4 s = none) (h2 : parse2First s = some (m, d, yy)) :
    format_date ff cy (some s) age =
      strftime ⟨(if yy < 50 then 2000 + (yy : Int) else resolveY2 yy), m, d⟩ := by
  have he : (if yy < 50 then 2000 + (yy : Int) else resolveY2 yy) = resolveY2 yy := by
    by_cases hyy : yy < 50
    · rw [if_pos hyy]
      unfold resolveY2
      rw [if_pos (by omega)]
    · rw [if_neg hyy]
  rw [he]
  exact format_date_two_digit ff cy age hs h4 h2

/-- C7 witness: `"03/04/05"` with a missing age resolves to `03-04-2005`. -/
theorem spec_C7_no_age_century_witness :
    hasNumericAge none = false ∧
    strip "03/04/05".data = "03/04/05".data ∧
    parse4 "03/04/05".data = none ∧
    parse2First "03/04/05".data = some (3, 4, 5) ∧
    format_date ffNone 2024 (some "03/04/05".data) none =
      strftime ⟨(if 5 < 50 then 2000 + (5 : Int) else resolveY2 5), 3, 4⟩ ∧
    format_date ffNone 2024 (some "03/04/05".data) none = "03-04-2005".data :=
  ⟨by decide, by decide, by decide, by decide,
    spec_C7_no_age_century ffNone 2024 none (by decide) (by decide) (by decide) (by decide),
    by decide⟩

/-- C8 counterexample: on an unparseable cell with surrounding whitespace the
function returns the stripped text, not the original raw string. -/
theorem spec_C8_counterexample :
    format_date ffNone 0 (some " not-a-date ".data) none = "not-a-date".data ∧
    "not-a-date".data ≠ " not-a-date ".data :=
  ⟨by decide, by decide⟩

/-- C8 (amended): when every four-digit pattern, every two-digit pattern and
the best-effort free-form parse fail, `format_date` returns the raw string
stripped of surrounding whitespace (hence unchanged whenever it had none),
never the empty string and never an error. -/
theorem spec_C8_unparseable (ff : Str → Option SDate) (cy : Int) (age : Cell)
    {s0 : Str} (h1 : strip s0 ≠ []) (h4 : parse4 (strip s0) = none)
    (h2 : parse2First (strip s0) = none) (hf : ff (strip s0) = none) :
    format_date ff cy (some s0) age = strip s0 ∧ format_date ff cy (some s0) age ≠ [] := by
  have h0 : s0 ≠ [] := by
    intro e
    subst e
    exact h1 rfl
  have h2s : twoDigitResolve cy age (strip s0) = none := by
    rw [twoDigitResolve_eq, h2]
    rfl
  have hr := format_date_fail h0 h1 h4 h2s hf
  exact ⟨hr, by rw [hr]; exact h1⟩

/-- C8 witness: `" not-a-date "` comes back as the stripped `"not-a-date"`,
a non-empty string. -/
theorem spec_C8_unparseable_witness :
    strip " not-a-date ".data = "not-a-date".data ∧
    format_date ffNone 0 (some " not-a-date ".data) none = strip " not-a-date ".data ∧
    format_date ffNone 0 (some " not-a-date ".data) none ≠ [] :=
  ⟨by decide,
    (spec_C8_unparseable ffNone 0 none (by decide) (by decide) (by decide) (by decide)).1,
    (spec_C8_unparseable ffNone 0 none (by decide) (by decide) (by decide) (by decide)).2⟩

/-- C10 (corrected): the clock influences `format_date` only through the
free-form fallback parser, which itself reads the current date.  Modelling
that parser as a clock-indexed family `ffc` (each run consults the parser at
its own current year), two runs at any two current years agree on every cell
that does not reach the fallback: missing, empty and blank cells, and every
cell some four-digit or two-digit strptime pattern parses (there the guarded
`year < 50` comparison reads the already-resolved year 1969-2068 and never
fires).  A cell that does reach the fallback can differ between runs
(`spec_C10_counterexample`). -/
theorem spec_C10_clock_scoped (ffc : Int → Str → Option SDate) (cy1 cy2 : Int)
    (ds : Cell) (a1 a2 : Cell) (h : usesFallback ds = false) :
    format_date (ffc cy1) cy1 ds a1 = format_date (ffc cy2) cy2 ds a2 := by
  cases ds with
  | none => rfl
  | some s0 =>
    by_cases h0 : s0 = []
    · subst h0
      rw [format_date_nil, format_date_nil]
    · by_cases h1 : strip s0 = []
      · rw [format_date_blank h1, format_date_blank h1]
      · simp only [usesFallback] at h
        rw [if_neg h0, if_neg h1] at h
        cases hp : parse4 (strip s0) with
        | some d =>
          rw [format_date_parse4 h0 h1 hp, format_date_parse4 h0 h1 hp]
        | none =>
          rw [hp] at h
          simp only [Option.isSome_none, Bool.false_eq_true, if_false] at h
          cases hq : parse2First (strip s0) with
          | some t =>
            have e1 : twoDigitResolve cy1 a1 (strip s0) =
                some (SDate.mk (resolveY2 t.2.2) t.1 t.2.1) := by
              rw [twoDigitResolve_eq, hq]
              rfl
            have e2 : twoDigitResolve cy2 a2 (strip s0) =
                some (SDate.mk (resolveY2 t.2.2) t.1 t.2.1) := by
              rw [twoDigitResolve_eq, hq]
              rfl
            rw [format_date_parse2 h0 h1 hp e1, format_date_parse2 h0 h1 hp e2]
          | none =>
            rw [hq] at h
            simp at h

/-- C10 witness: at the concrete pandas-style family `ffYearless`, the
two-digit cell `"03/04/05"` is parsed by a strptime pattern (it never reaches
the fallback), so runs at current years 2025 and 2026 agree on it. -/
theorem spec_C10_clock_scoped_witness :
    usesFallback (some "03/04/05".data) = false ∧
      format_date (ffYearless 2025) 2025 (some "03/04/05".data) none =
        format_date (ffYearless 2026) 2026 (some "03/04/05".data) none :=
  ⟨by decide,
    spec_C10_clock_scoped ffYearless 2025 2026 (some "03/04/05".data) none none (by decide)⟩

/-- C10 counterexample: `format_date` is not clock-independent, because the
line-115 fallback `pd.to_datetime(_, errors='coerce')` reads the clock.  With
the pandas-style family `ffYearless` - a valid free-form oracle at either
clock - the yearless cell `"March 4"` reaches the fallback and formats to
`03-04-2025` in a run whose current year is 2025 but `03-04-2026` in a run
whose current year is 2026. -/
theorem spec_C10_counterexample :
    ValidFreeform (ffYearless 2025) ∧ ValidFreeform (ffYearless 2026) ∧
      usesFallback (some "March 4".data) = true ∧
      format_date (ffYearless 2025) 2025 (some "March 4".data) none ≠
        format_date (ffYearless 2026) 2026 (some "March 4".data) none := by
  refine ⟨?_, ?_, by decide, by decide⟩
  · intro s d h
    unfold ffYearless at h
    by_cases hs : s = "March 4".data
    · rw [if_pos hs] at h
      injection h with h2
      rw [← h2]
      decide
    · rw [if_neg hs] at h
      exact Option.noConfusion h
  · intro s d h
    unfold ffYearless at h
    by_cases hs : s = "March 4".data
    · rw [if_pos hs] at h
      injection h with h2
      rw [← h2]
      decide
    · rw [if_neg hs] at h
      exact Option.noConfusion h

/-! ## DataFrame operation lemmas -/

theorem lookupCol_append {n : String} {l1 l2 : List (String × List Cell)}
    (h : lookupCol n l1 = none) : lookupCol n (l1 ++ l2) = lookupCol n l2 := by
  induction l1 with
  | nil => rfl
  | cons c t ih =>
    simp only [lookupCol] at h
    by_cases hc : c.1 = n
    · rw [if_pos hc] at h
      exact absurd h (by simp)
    · rw [if_neg hc] at h
      rw [List.cons_append]
      simp only [lookupCol, if_neg hc]
      exact ih h

theorem lookupCol_replaceFirst_self {n : String} {vs : List Cell}
    {cols : List (String × List Cell)} (h : lookupCol n cols ≠ none) :
    lookupCol n (replaceFirst n vs cols) = some vs := by
  induction cols with
  | nil => exact absurd rfl h
  | cons c t ih =>
    simp only [lookupCol, replaceFirst] at h ⊢
    by_cases hc : c.1 = n
    · rw [if_pos hc]
      simp [lookupCol]
    · rw [if_neg hc] at h ⊢
      simp only [lookupCol, if_neg hc]
      exact ih h

theorem lookupCol_replaceFirst_ne {m n : String} {vs : List Cell}
    {cols : List (String × List Cell)} (hmn : m ≠ n) :
    lookupCol m (replaceFirst n vs cols) = lookupCol m cols := by
  induction cols with
  | nil => rfl
  | cons c t ih =>
    simp only [replaceFirst]
    by_cases hc : c.1 = n
    · rw [if_pos hc]
      simp only [lookupCol, if_neg (show ¬ (n = m) from fun e => hmn e.symm)]
      rw [if_neg (show ¬ (c.1 = m) from fun e => hmn (e.symm.trans hc))]
    · rw [if_neg hc]
      simp only [lookupCol]
      by_cases hcm : c.1 = m
      · rw [if_pos hcm, if_pos hcm]
      · rw [if_neg hcm, if_neg hcm]
        exact ih

theorem replaceFirst_lookup_self {n : String} {vs : List Cell}
    {cols : List (String × List Cell)} (h : lookupCol n cols = some vs) :
    replaceFirst n vs cols = cols := by
  induction cols with
  | nil => simp [lookupCol] at h
  | cons c t ih =>
    simp only [lookupCol] at h
    simp only [replaceFirst]
    by_cases hc : c.1 = n
    · rw [if_pos hc] at h
      injection h with h2
      have he : (n, vs) = c := by
        obtain ⟨cn, cv⟩ := c
        simp only at hc h2
        rw [hc, h2]
      rw [if_pos hc, he]
    · rw [if_neg hc] at h
      rw [if_neg hc, ih h]

theorem getCol_setColVals_self (df : DataFrame) (n : String) (vs : List Cell) :
    getCol (setColVals df n vs) n = some vs := by
  unfold setColVals getCol
  by_cases h : hasCol df n = true
  · rw [if_pos h]
    exact lookupCol_replaceFirst_self (by
      unfold hasCol getCol at h
      intro e
      rw [e] at h
      simp at h)
  · rw [if_neg h]
    have hn : lookupCol n df.cols = none := by
      unfold hasCol getCol at h
      cases hl : lookupCol n df.cols with
      | none => rfl
      | some v => rw [hl] at h; simp at h
    rw [lookupCol_append hn]
    simp [lookupCol]

theorem lookupCol_append_single_ne {n m : String} {vs : List Cell}
    {cols : List (String × List Cell)} (hmn : m ≠ n) :
    lookupCol n (cols ++ [(m, vs)]) = lookupCol n cols := by
  induction cols with
  | nil =>
    simp only [List.nil_append, lookupCol]
    rw [if_neg (show ¬ ((m, vs).1 = n) from hmn)]
  | cons c t ih =>
    simp only [List.cons_append, lookupCol]
    by_cases hc : c.1 = n
    · rw [if_pos hc, if_pos hc]
    · rw [if_neg hc, if_neg hc]
      exact ih

theorem getCol_setColVals_ne (df : DataFrame) {m n : String} (vs : List Cell)
    (hmn : m ≠ n) : getCol (setColVals df m vs) n = getCol df n := by
  unfold setColVals getCol
  by_cases h : hasCol df m = true
  · rw [if_pos h]
    exact lookupCol_replaceFirst_ne (fun e => hmn e.symm)
  · rw [if_neg h]
    exact lookupCol_append_single_ne hmn

theorem setColVals_self {df : DataFrame} {n : String} {vs : List Cell}
    (h : getCol df n = some vs) : setColVals df n vs = df := by
  unfold setColVals
  have hh : hasCol df n = true := by unfold hasCol; rw [h]; rfl
  rw [if_pos hh]
  have := @replaceFirst_lookup_self n vs df.cols h
  rw [this]

theorem hasCol_iff_getCol {df : DataFrame} {n : String} :
    hasCol df n = true ↔ ∃ vs, getCol df n = some vs := by
  unfold hasCol
  cases h : getCol df n with
  | none => simp
  | some v => simp

theorem hasCol_setColVals_self (df : DataFrame) (n : String) (vs : List Cell) :
    hasCol (setColVals df n vs) n = true := by
  unfold hasCol
  rw [getCol_setColVals_self]
  rfl

theorem hasCol_setColVals_ne (df : DataFrame) {m n : String} (vs : List Cell)
    (hmn : m ≠ n) : hasCol (setColVals df m vs) n = hasCol df n := by
  unfold hasCol
  rw [getCol_setColVals_ne df vs hmn]

theorem lookupCol_removeCol_ne {m n : String} {cols : List (String × List Cell)}
    (hmn : m ≠ n) : lookupCol n (removeCol m cols) = lookupCol n cols := by
  induction cols with
  | nil => rfl
  | cons c t ih =>
    simp only [removeCol]
    by_cases hc : c.1 = m
    · rw [if_pos hc]
      have hcn : ¬ (c.1 = n) := fun e => hmn (hc ▸ e : m = n)
      rw [ih]
      simp only [lookupCol, if_neg hcn]
    · rw [if_neg hc]
      simp only [lookupCol]
      by_cases hcn : c.1 = n
      · rw [if_pos hcn, if_pos hcn]
      · rw [if_neg hcn, if_neg hcn]
        exact ih

theorem lookupCol_removeCol_self {n : String} {cols : List (String × List Cell)} :
    lookupCol n (removeCol n cols) = none := by
  induction cols with
  | nil => rfl
  | cons c t ih =>
    simp only [removeCol]
    by_cases hc : c.1 = n
    · rw [if_pos hc]
      exact ih
    · rw [if_neg hc]
      simp only [lookupCol, if_neg hc]
      exact ih

theorem getCol_dropCol_ne (df : DataFrame) {m n : String} (hmn : m ≠ n) :
    getCol (dropCol df m) n = getCol df n := lookupCol_removeCol_ne hmn

theorem getCol_dropCol_self (df : DataFrame) (n : String) :
    getCol (dropCol df n) n = none := lookupCol_removeCol_self

theorem hasCol_dropCol_ne (df : DataFrame) {m n : String} (hmn : m ≠ n) :
    hasCol (dropCol df m) n = hasCol df n := by
  unfold hasCol
  rw [getCol_dropCol_ne df hmn]

theorem hasCol_dropCol_self (df : DataFrame) (n : String) :
    hasCol (dropCol df n) n = false := by
  unfold hasCol
  rw [getCol_dropCol_self]
  rfl

theorem mem_keepValid {c : String × List Cell} {cols : List (String × List Cell)}
    (h : c ∈ keepValid cols) : c ∈ cols ∧ validCol c.1 = true := by
  induction cols with
  | nil => simp [keepValid] at h
  | cons b t ih =>
    simp only [keepValid] at h
    by_cases hb : validCol b.1 = true
    · rw [if_pos hb] at h
      rcases List.mem_cons.1 h with he | ht
      · exact ⟨List.mem_cons.2 (Or.inl he), he ▸ hb⟩
      · obtain ⟨h1, h2⟩ := ih ht
        exact ⟨List.mem_cons.2 (Or.inr h1), h2⟩
    · rw [if_neg hb] at h
      obtain ⟨h1, h2⟩ := ih h
      exact ⟨List.mem_cons.2 (Or.inr h1), h2⟩

theorem keepValid_eq_self {cols : List (String × List Cell)}
    (h : ∀ c ∈ cols, validCol c.1 = true) : keepValid cols = cols := by
  induction cols with
  | nil => rfl
  | cons b t ih =>
    simp only [keepValid]
    rw [if_pos (h b (List.mem_cons_self b t)), ih (fun c hc => h c (List.mem_cons_of_mem b hc))]

theorem lookupCol_keepValid {n : String} {cols : List (String × List Cell)}
    (h : validCol n = true) : lookupCol n (keepValid cols) = lookupCol n cols := by
  induction cols with
  | nil => rfl
  | cons c t ih =>
    simp only [keepValid]
    by_cases hv : validCol c.1 = true
    · rw [if_pos hv]
      simp only [lookupCol]
      by_cases hc : c.1 = n
      · rw [if_pos hc, if_pos hc]
      · rw [if_neg hc, if_neg hc]
        exact ih
    · rw [if_neg hv]
      have hc : ¬ (c.1 = n) := fun e => hv (e ▸ h)
      simp only [lookupCol, if_neg hc]
      exact ih

theorem getCol_projectCols {df : DataFrame} {n : String} (h : validCol n = true) :
    getCol (projectCols df) n = getCol df n := lookupCol_keepValid h

theorem hasCol_projectCols {df : DataFrame} {n : String} (h : validCol n = true) :
    hasCol (projectCols df) n = hasCol df n := by
  unfold hasCol
  rw [getCol_projectCols h]

theorem lookupCol_mem {n : String} {vs : List Cell} {cols : List (String × List Cell)}
    (h : lookupCol n cols = some vs) : (n, vs) ∈ cols := by
  induction cols with
  | nil => simp [lookupCol] at h
  | cons c t ih =>
    simp only [lookupCol] at h
    by_cases hc : c.1 = n
    · rw [if_pos hc] at h
      injection h with h2
      have he : (n, vs) = c := by
        obtain ⟨cn, cv⟩ := c
        simp only at hc h2
        rw [hc, h2]
      rw [he]
      exact List.mem_cons_self c t
    · rw [if_neg hc] at h
      exact List.mem_cons_of_mem c (ih h)

theorem getCol_mem {df : DataFrame} {n : String} {vs : List Cell}
    (h : getCol df n = some vs) : (n, vs) ∈ df.cols := lookupCol_mem h

/-! ## Row count and well-formedness preservation -/

theorem nrows_setColVals (df : DataFrame) (n : String) (vs : List Cell) :
    (setColVals df n vs).nrows = df.nrows := by
  unfold setColVals
  split <;> rfl

theorem nrows_dropCol (df : DataFrame) (n : String) : (dropCol df n).nrows = df.nrows := rfl

theorem nrows_projectCols (df : DataFrame) : (projectCols df).nrows = df.nrows := rfl

theorem nrows_renameHeaders (df : DataFrame) : (renameHeaders df).nrows = df.nrows := rfl

theorem nrows_blankCol (df : DataFrame) (n : String) : (blankCol df n).nrows = df.nrows :=
  nrows_setColVals df n _

theorem nrows_foldl_blankCol (l : List String) (df : DataFrame) :
    (l.foldl blankCol df).nrows = df.nrows := by
  induction l generalizing df with
  | nil => rfl
  | cons n t ih => rw [List.foldl_cons, ih, nrows_blankCol]

theorem nrows_foldl_kw (l : List (Str × String)) (d : DataFrame) (iv : List Cell) :
    (l.foldl (fun d kc => setColVals d kc.2
      (List.zipWith (fun ivc tv => if cellMatches ivc kc.1 = true then some "YES".data else tv)
        iv (colOf d kc.2))) d).nrows = d.nrows := by
  induction l generalizing d with
  | nil => rfl
  | cons kc t ih => rw [List.foldl_cons, ih, nrows_setColVals]

theorem nrows_process_interests (df : DataFrame) :
    (process_interests df).nrows = df.nrows := by
  cases hI : findInterestCol (interest_columns.foldl blankCol df) with
  | some icol =>
    simp only [process_interests, hI]
    split
    · rw [nrows_dropCol, nrows_setColVals, nrows_dropCol, nrows_foldl_kw, nrows_foldl_blankCol]
    · rw [nrows_dropCol, nrows_foldl_kw, nrows_foldl_blankCol]
  | none =>
    simp only [process_interests, hI]
    split
    · rw [nrows_dropCol, nrows_setColVals, nrows_foldl_blankCol]
    · rw [nrows_foldl_blankCol]

theorem nrows_cmSub (cm : String × List (Str × Str)) (df : DataFrame) :
    (cmSub cm df).nrows = df.nrows := by
  unfold cmSub
  split
  · split <;> simp only [nrows_setColVals]
  · rfl

theorem nrows_applyCellMappings (df : DataFrame) :
    (applyCellMappings df).nrows = df.nrows := by
  unfold applyCellMappings
  simp only [cell_mappings, List.foldl_cons, List.foldl_nil]
  rw [nrows_cmSub, nrows_cmSub]

theorem nrows_smsStage (df : DataFrame) : (smsStage df).nrows = df.nrows := by
  unfold smsStage
  split
  · rw [nrows_setColVals]
  · rfl

theorem nrows_dateSub (ff : Str → Option SDate) (cy : Int) (fld : String) (df : DataFrame) :
    (dateSub ff cy fld df).nrows = df.nrows := by
  unfold dateSub
  split
  · split <;> rw [nrows_setColVals]
  · rfl

theorem nrows_dateStage (ff : Str → Option SDate) (cy : Int) (df : DataFrame) :
    (dateStage ff cy df).nrows = df.nrows := by
  unfold dateStage
  simp only [date_fields, List.foldl_cons, List.foldl_nil]
  rw [nrows_dateSub, nrows_dateSub]

theorem nrows_clean_dataframe (ff : Str → Option SDate) (cy : Int) (df : DataFrame) :
    (clean_dataframe ff cy df).nrows = df.nrows := by
  unfold clean_dataframe
  rw [nrows_projectCols, nrows_dateStage, nrows_smsStage, nrows_applyCellMappings,
    nrows_process_interests, nrows_renameHeaders]

theorem mem_replaceFirst {c : String × List Cell} {n : String} {vs : List Cell}
    {cols : List (String × List Cell)} (h : c ∈ replaceFirst n vs cols) :
    c ∈ cols ∨ c = (n, vs) := by
  induction cols with
  | nil => simp [replaceFirst] at h
  | cons b t ih =>
    simp only [replaceFirst] at h
    by_cases hb : b.1 = n
    · rw [if_pos hb] at h
      rcases List.mem_cons.1 h with he | ht
      · exact Or.inr he
      · exact Or.inl (List.mem_cons_of_mem b ht)
    · rw [if_neg hb] at h
      rcases List.mem_cons.1 h with he | ht
      · exact Or.inl (List.mem_cons.2 (Or.inl he))
      · rcases ih ht with h1 | h1
        · exact Or.inl (List.mem_cons_of_mem b h1)
        · exact Or.inr h1

theorem mem_removeCol {c : String × List Cell} {n : String}
    {cols : List (String × List Cell)} (h : c ∈ removeCol n cols) : c ∈ cols := by
  induction cols with
  | nil => simp [removeCol] at h
  | cons b t ih =>
    simp only [removeCol] at h
    by_cases hb : b.1 = n
    · rw [if_pos hb] at h
      exact List.mem_cons_of_mem b (ih h)
    · rw [if_neg hb] at h
      rcases List.mem_cons.1 h with he | ht
      · exact List.mem_cons.2 (Or.inl he)
      · exact List.mem_cons_of_mem b (ih ht)

theorem WF_setColVals {df : DataFrame} {n : String} {vs : List Cell}
    (hw : df.WF) (hv : vs.length = df.nrows) : (setColVals df n vs).WF := by
  intro c hc
  rw [nrows_setColVals]
  unfold setColVals at hc
  by_cases h : hasCol df n = true
  · rw [if_pos h] at hc
    rcases mem_replaceFirst hc with h1 | h1
    · exact hw c h1
    · rw [h1]
      exact hv
  · rw [if_neg h] at hc
    rcases List.mem_append.1 hc with h1 | h1
    · exact hw c h1
    · simp only [List.mem_singleton] at h1
      rw [h1]
      exact hv

theorem WF_dropCol {df : DataFrame} (n : String) (hw : df.WF) : (dropCol df n).WF := by
  intro c hc
  exact hw c (mem_removeCol hc)

theorem WF_projectCols {df : DataFrame} (hw : df.WF) : (projectCols df).WF := by
  intro c hc
  exact hw c (mem_keepValid hc).1

theorem WF_renameHeaders {df : DataFrame} (hw : df.WF) : (renameHeaders df).WF := by
  intro c hc
  simp only [renameHeaders, List.mem_map] at hc
  obtain ⟨b, hb, he⟩ := hc
  rw [← he]
  exact hw b hb

theorem colOf_length {df : DataFrame} {n : String} (hw : df.WF) (h : hasCol df n = true) :
    (colOf df n).length = df.nrows := by
  obtain ⟨vs, hv⟩ := hasCol_iff_getCol.1 h
  have hm := getCol_mem hv
  unfold colOf
  rw [hv]
  exact hw (n, vs) hm

theorem WF_blankCol {df : DataFrame} (n : String) (hw : df.WF) : (blankCol df n).WF :=
  WF_setColVals hw (List.length_replicate _ _)

theorem WF_foldl_blankCol {df : DataFrame} (l : List String) (hw : df.WF) :
    (l.foldl blankCol df).WF := by
  induction l generalizing df with
  | nil => exact hw
  | cons n t ih => exact ih (WF_blankCol n hw)

theorem hasCol_setColVals_mono {df : DataFrame} {m n : String} {vs : List Cell}
    (h : hasCol df n = true) : hasCol (setColVals df m vs) n = true := by
  by_cases he : n = m
  · rw [he]
    exact hasCol_setColVals_self df m vs
  · rw [hasCol_setColVals_ne df vs (fun e => he e.symm)]
    exact h

theorem hasCol_blankCol_mono {df : DataFrame} {m n : String}
    (h : hasCol df n = true) : hasCol (blankCol df m) n = true :=
  hasCol_setColVals_mono h

theorem hasCol_foldl_blankCol_mono {df : DataFrame} {l : List String} {n : String}
    (h : hasCol df n = true) : hasCol (l.foldl blankCol df) n = true := by
  induction l generalizing df with
  | nil => exact h
  | cons m t ih => exact ih (hasCol_blankCol_mono h)

theorem hasCol_foldl_blankCol_of_mem {df : DataFrame} {l : List String} {n : String}
    (h : n ∈ l) : hasCol (l.foldl blankCol df) n = true := by
  induction l generalizing df with
  | nil => simp at h
  | cons m t ih =>
    rcases List.mem_cons.1 h with he | ht
    · subst he
      rw [List.foldl_cons]
      exact hasCol_foldl_blankCol_mono (hasCol_setColVals_self df n _)
    · exact ih ht

theorem findInterestCol_hasCol {df : DataFrame} {icol : String}
    (h : findInterestCol df = some icol) : hasCol df icol = true := by
  unfold findInterestCol at h
  by_cases h1 : hasCol df "Interest" = true
  · rw [if_pos h1] at h
    injection h with h2
    rw [← h2]
    exact h1
  · rw [if_neg h1] at h
    by_cases h2 : hasCol df "interest" = true
    · rw [if_pos h2] at h
      injection h with h3
      rw [← h3]
      exact h2
    · rw [if_neg h2] at h
      exact absurd h (by simp)

theorem findInterestCol_cases {df : DataFrame} {icol : String}
    (h : findInterestCol df = some icol) : icol = "Interest" ∨ icol = "interest" := by
  unfold findInterestCol at h
  by_cases h1 : hasCol df "Interest" = true
  · rw [if_pos h1] at h
    injection h with h2
    exact Or.inl h2.symm
  · rw [if_neg h1] at h
    by_cases h2 : hasCol df "interest" = true
    · rw [if_pos h2] at h
      injection h with h3
      exact Or.inr h3.symm
    · rw [if_neg h2] at h
      exact absurd h (by simp)

theorem WF_foldl_kw {l : List (Str × String)} {d : DataFrame} {iv : List Cell}
    (hw : d.WF) (hiv : iv.length = d.nrows)
    (hcols : ∀ kc ∈ l, hasCol d kc.2 = true) :
    (l.foldl (fun d kc => setColVals d kc.2
      (List.zipWith (fun ivc tv => if cellMatches ivc kc.1 = true then some "YES".data else tv)
        iv (colOf d kc.2))) d).WF := by
  induction l generalizing d with
  | nil => exact hw
  | cons kc t ih =>
    rw [List.foldl_cons]
    have hlen : (List.zipWith
        (fun ivc tv => if cellMatches ivc kc.1 = true then some "YES".data else tv)
        iv (colOf d kc.2)).length = d.nrows := by
      rw [List.length_zipWith, hiv, colOf_length hw (hcols kc (List.mem_cons_self kc t))]
      exact Nat.min_self _
    exact ih (WF_setColVals hw hlen) (by rw [nrows_setColVals]; exact hiv)
      (fun kc2 h2 => hasCol_setColVals_mono (hcols kc2 (List.mem_cons_of_mem kc h2)))

theorem hasCol_foldl_kw_mono {l : List (Str × String)} {d : DataFrame} {iv : List Cell}
    {n : String} (h : hasCol d n = true) :
    hasCol (l.foldl (fun d kc => setColVals d kc.2
      (List.zipWith (fun ivc tv => if cellMatches ivc kc.1 = true then some "YES".data else tv)
        iv (colOf d kc.2))) d) n = true := by
  induction l generalizing d with
  | nil => exact h
  | cons kc t ih =>
    rw [List.foldl_cons]
    exact ih (hasCol_setColVals_mono h)

theorem interest_keyword_targets :
    ∀ kc ∈ interest_keywords, kc.2 ∈ interest_columns := by decide

theorem WF_process_interests {df : DataFrame} (hw : df.WF) :
    (process_interests df).WF := by
  have hw1 : (interest_columns.foldl blankCol df).WF := WF_foldl_blankCol _ hw
  have hn1 : (interest_columns.foldl blankCol df).nrows = df.nrows := nrows_foldl_blankCol _ df
  cases hI : findInterestCol (interest_columns.foldl blankCol df) with
  | some icol =>
    simp only [process_interests, hI]
    have hiv : (colOf (interest_columns.foldl blankCol df) icol).length =
        (interest_columns.foldl blankCol df).nrows :=
      colOf_length hw1 (findInterestCol_hasCol hI)
    have hwk := WF_foldl_kw (l := interest_keywords) hw1 hiv
      (fun kc hk => hasCol_foldl_blankCol_of_mem (interest_keyword_targets kc hk))
    have hwd : (dropCol (interest_keywords.foldl _ _) icol).WF := WF_dropCol icol hwk
    split
    · rename_i hy
      apply WF_dropCol
      apply WF_setColVals hwd
      rw [List.length_zipWith]
      have hicol := findInterestCol_cases hI
      have h1 := @hasCol_foldl_kw_mono interest_keywords _
        (colOf (interest_columns.foldl blankCol df) icol) _
        (@hasCol_foldl_blankCol_of_mem df interest_columns "INTEREST_YOUTH" (by decide))
      have hIY : hasCol (dropCol (interest_keywords.foldl (fun d kc => setColVals d kc.2
          (List.zipWith (fun ivc tv => if cellMatches ivc kc.1 = true then some "YES".data else tv)
            (colOf (interest_columns.foldl blankCol df) icol) (colOf d kc.2)))
          (interest_columns.foldl blankCol df)) icol) "INTEREST_YOUTH" = true := by
        rcases hicol with he | he <;>
          (subst he; rw [hasCol_dropCol_ne _ (by decide)]; exact h1)
      rw [colOf_length hwd hy, colOf_length hwd hIY]
      exact Nat.min_self _
    · exact hwd
  | none =>
    simp only [process_interests, hI]
    split
    · rename_i hy
      apply WF_dropCol
      apply WF_setColVals hw1
      rw [List.length_zipWith]
      have hIY : hasCol (interest_columns.foldl blankCol df) "INTEREST_YOUTH" = true :=
        hasCol_foldl_blankCol_of_mem (by decide)
      rw [colOf_length hw1 hIY, colOf_length hw1 hy]
      exact Nat.min_self _
    · exact hw1

theorem WF_cmSub {df : DataFrame} (cm : String × List (Str × Str)) (hw : df.WF) :
    (cmSub cm df).WF := by
  unfold cmSub
  split
  · rename_i hc
    split
    · rename_i hb
      have hw2 : (setColVals df cm.1 ((colOf df cm.1).map badgeFill)).WF :=
        WF_setColVals hw (by rw [List.length_map]; exact colOf_length hw hc)
      apply WF_setColVals hw2
      rw [List.length_map]
      exact colOf_length hw2 (hasCol_setColVals_self df cm.1 _)
    · apply WF_setColVals hw
      rw [List.length_map]
      exact colOf_length hw hc
  · exact hw

theorem WF_applyCellMappings {df : DataFrame} (hw : df.WF) : (applyCellMappings df).WF := by
  unfold applyCellMappings
  simp only [cell_mappings, List.foldl_cons, List.foldl_nil]
  exact WF_cmSub _ (WF_cmSub _ hw)

theorem WF_smsStage {df : DataFrame} (hw : df.WF) : (smsStage df).WF := by
  unfold smsStage
  split
  · rename_i hc
    apply WF_setColVals hw
    rw [List.length_map]
    exact colOf_length hw hc
  · exact hw

theorem WF_dateSub {df : DataFrame} (ff : Str → Option SDate) (cy : Int) (fld : String)
    (hw : df.WF) : (dateSub ff cy fld df).WF := by
  unfold dateSub
  split
  · rename_i hc
    split
    · rename_i hb
      apply WF_setColVals hw
      rw [List.length_zipWith, colOf_length hw hc, colOf_length hw hb.2]
      exact Nat.min_self _
    · apply WF_setColVals hw
      rw [List.length_map]
      exact colOf_length hw hc
  · exact hw

theorem WF_dateStage {df : DataFrame} (ff : Str → Option SDate) (cy : Int) (hw : df.WF) :
    (dateStage ff cy df).WF := by
  unfold dateStage
  simp only [date_fields, List.foldl_cons, List.foldl_nil]
  exact WF_dateSub ff cy _ (WF_dateSub ff cy _ hw)

theorem WF_clean_dataframe {df : DataFrame} (ff : Str → Option SDate) (cy : Int)
    (hw : df.WF) : (clean_dataframe ff cy df).WF :=
  WF_projectCols (WF_dateStage ff cy (WF_smsStage (WF_applyCellMappings
    (WF_process_interests (WF_renameHeaders hw)))))

/-! ## Claims on projection, row count and phone cleaning -/

theorem memStr_iff {n : String} {l : List String} : memStr n l = true ↔ n ∈ l := by
  induction l with
  | nil => simp [memStr]
  | cons s t ih =>
    simp only [memStr]
    by_cases hs : s = n
    · rw [if_pos hs]
      simp [hs]
    · rw [if_neg hs]
      rw [ih]
      simp [List.mem_cons]
      intro e
      exact absurd e.symm hs

theorem clean_dataframe_def (ff : Str → Option SDate) (cy : Int) (df : DataFrame) :
    clean_dataframe ff cy df = projectCols (dateStage ff cy (smsStage (applyCellMappings
      (process_interests (renameHeaders df))))) := rfl

theorem cols_projectCols (df : DataFrame) : (projectCols df).cols = keepValid df.cols := rfl

/-- C4: projection closure - every column name of the table returned by
`clean_dataframe` is a member of the canonical allow-list `valid_columns`
(the header-mapping targets plus the four INTEREST columns); no other input
column survives, renamed or not. -/
theorem spec_C4_projection_closure (ff : Str → Option SDate) (cy : Int) (df : DataFrame) :
    ((clean_dataframe ff cy df).cols.all (fun c => validCol c.1)) = true ∧
    (∀ c ∈ (clean_dataframe ff cy df).cols, c.1 ∈ valid_columns) := by
  have hmem : ∀ c ∈ (clean_dataframe ff cy df).cols, validCol c.1 = true := by
    intro c hc
    rw [clean_dataframe_def, cols_projectCols] at hc
    exact (mem_keepValid hc).2
  exact ⟨List.all_eq_true.2 hmem, fun c hc => memStr_iff.1 (hmem c hc)⟩

/-- C5: row-count invariance - the cleaned table has exactly as many rows as
the input (also for zero rows), no stage changes the row count, and
well-formedness (every column having exactly `nrows` cells) is preserved. -/
theorem spec_C5_row_count (ff : Str → Option SDate) (cy : Int) (df : DataFrame) :
    (clean_dataframe ff cy df).nrows = df.nrows ∧
    (renameHeaders df).nrows = df.nrows ∧
    (process_interests df).nrows = df.nrows ∧
    (applyCellMappings df).nrows = df.nrows ∧
    (smsStage df).nrows = df.nrows ∧
    (dateStage ff cy df).nrows = df.nrows ∧
    (projectCols df).nrows = df.nrows ∧
    (df.WF → (clean_dataframe ff cy df).WF) :=
  ⟨nrows_clean_dataframe ff cy df, nrows_renameHeaders df, nrows_process_interests df,
    nrows_applyCellMappings df, nrows_smsStage df, nrows_dateStage ff cy df,
    nrows_projectCols df, fun hw => WF_clean_dataframe ff cy hw⟩

/-- C5 witness: a zero-row table keeps zero rows and stays well-formed. -/
theorem spec_C5_row_count_witness :
    (clean_dataframe ffNone 0 ⟨0, [("Badge", [])]⟩).nrows = 0 ∧
    DataFrame.WF ⟨0, [("Badge", [])]⟩ ∧
    (clean_dataframe ffNone 0 ⟨0, [("Badge", [])]⟩).WF :=
  ⟨(spec_C5_row_count ffNone 0 ⟨0, [("Badge", [])]⟩).1, by decide,
    (spec_C5_row_count ffNone 0 ⟨0, [("Badge", [])]⟩).2.2.2.2.2.2.2 (by decide)⟩

/-- C3 counterexample: the digit extraction of `"(555) 123-4567 ext2"` is
`"55512345672"` (all eleven digits, in order), not the `"5551234562"` the
claim asserts. -/
theorem spec_C3_counterexample :
    clean_phone (some "(555) 123-4567 ext2".data) = "55512345672".data ∧
    "55512345672".data ≠ "5551234562".data :=
  ⟨by decide, by decide⟩

/-- C3 (amended): phone cleaning rewrites every cell of the SMS column to
exactly its digit characters in original order, with missing or empty input
giving the empty string; `"(555) 123-4567 ext2"` becomes `"55512345672"`. -/
theorem spec_C3_phone_cleaning :
    (∀ df : DataFrame, hasCol df "SMS" = true →
      getCol (smsStage df) "SMS" =
        some ((colOf df "SMS").map (fun c => some (clean_phone c)))) ∧
    clean_phone none = [] ∧
    clean_phone (some []) = [] ∧
    (∀ s : Str, clean_phone (some s) = s.filter Char.isDigit) ∧
    clean_phone (some "(555) 123-4567 ext2".data) = "55512345672".data := by
  refine ⟨?_, rfl, by decide, ?_, by decide⟩
  · intro df h
    unfold smsStage
    rw [if_pos h]
    exact getCol_setColVals_self df "SMS" _
  · intro s
    by_cases h : s = []
    · subst h
      simp [clean_phone]
    · simp only [clean_phone, if_neg h]

/-- C3 witness: the SMS stage applied to a one-row table rewrites the cell to
its digits. -/
theorem spec_C3_phone_cleaning_witness :
    hasCol ⟨1, [("SMS", [some "(555) 123-4567 ext2".data])]⟩ "SMS" = true ∧
    getCol (smsStage ⟨1, [("SMS", [some "(555) 123-4567 ext2".data])]⟩) "SMS" =
      some [some "55512345672".data] :=
  ⟨by decide,
    (spec_C3_phone_cleaning.1 ⟨1, [("SMS", [some "(555) 123-4567 ext2".data])]⟩
      (by decide)).trans (by decide)⟩

/-! ## Characterizing `process_interests` -/

theorem getCol_blankCol_ne {df : DataFrame} {m n : String} (h : m ≠ n) :
    getCol (blankCol df m) n = getCol df n := getCol_setColVals_ne df _ h

theorem getCol_foldl_blankCol_ne {l : List String} {df : DataFrame} {n : String}
    (h : n ∉ l) : getCol (l.foldl blankCol df) n = getCol df n := by
  induction l generalizing df with
  | nil => rfl
  | cons m t ih =>
    rw [List.foldl_cons, ih (fun hm => h (List.mem_cons_of_mem m hm)),
      getCol_blankCol_ne (fun e => h (by rw [e]; exact List.mem_cons_self n t))]

theorem hasCol_foldl_blankCol_ne {l : List String} {df : DataFrame} {n : String}
    (h : n ∉ l) : hasCol (l.foldl blankCol df) n = hasCol df n := by
  unfold hasCol
  rw [getCol_foldl_blankCol_ne h]

theorem findInterestCol_foldl_blank (df : DataFrame) :
    findInterestCol (interest_columns.foldl blankCol df) = findInterestCol df := by
  unfold findInterestCol
  rw [hasCol_foldl_blankCol_ne (by decide), hasCol_foldl_blankCol_ne (by decide)]

theorem getCol_foldl_kw_ne {l : List (Str × String)} {d : DataFrame} {iv : List Cell}
    {n : String} (h : ∀ kc ∈ l, kc.2 ≠ n) :
    getCol (l.foldl (fun d kc => setColVals d kc.2
      (List.zipWith (fun ivc tv => if cellMatches ivc kc.1 = true then some "YES".data else tv)
        iv (colOf d kc.2))) d) n = getCol d n := by
  induction l generalizing d with
  | nil => rfl
  | cons kc t ih =>
    rw [List.foldl_cons, ih (fun kc2 h2 => h kc2 (List.mem_cons_of_mem kc h2)),
      getCol_setColVals_ne d _ (fun e => h kc (List.mem_cons_self kc t) e)]

theorem getD_zipWith {α β γ : Type} (f : α → β → γ) (xs : List α) (ys : List β) (i : Nat)
    (hx : i < xs.length) (hy : i < ys.length) (da : α) (db : β) (dc : γ) :
    (List.zipWith f xs ys).getD i dc = f (xs.getD i da) (ys.getD i db) := by
  induction xs generalizing ys i with
  | nil => simp at hx
  | cons x xt ih =>
    cases ys with
    | nil => simp at hy
    | cons y yt =>
      cases i with
      | zero => rfl
      | succ j =>
        simp only [List.zipWith_cons_cons, List.getD_cons_succ]
        exact ih yt j (by simpa using hx) (by simpa using hy)

theorem getD_replicate {α : Type} (n : Nat) (x : α) (i : Nat) (h : i < n) (d : α) :
    (List.replicate n x).getD i d = x := by
  induction n generalizing i with
  | zero => omega
  | succ m ih =>
    cases i with
    | zero => rfl
    | succ j =>
      simp only [List.replicate_succ, List.getD_cons_succ]
      exact ih j (by omega)

theorem getCol_blankInterests_of_mem {df : DataFrame} {tgt : String}
    (ht : tgt ∈ interest_columns) :
    getCol (interest_columns.foldl blankCol df) tgt =
      some (List.replicate df.nrows (some [])) := by
  have h4 : tgt = "INTEREST_YOUTH" ∨ tgt = "INTEREST_ADULT" ∨
      tgt = "INTEREST_OUTDOOR" ∨ tgt = "INTEREST_FITNESS" := by
    simpa [interest_columns] using ht
  simp only [interest_columns, List.foldl_cons, List.foldl_nil]
  rcases h4 with he | he | he | he <;> subst he
  · rw [getCol_blankCol_ne (by decide), getCol_blankCol_ne (by decide),
      getCol_blankCol_ne (by decide)]
    unfold blankCol
    rw [getCol_setColVals_self]
  · rw [getCol_blankCol_ne (by decide), getCol_blankCol_ne (by decide)]
    unfold blankCol
    rw [getCol_setColVals_self]
    simp only [nrows_setColVals]
  · rw [getCol_blankCol_ne (by decide)]
    unfold blankCol
    rw [getCol_setColVals_self]
    simp only [nrows_setColVals]
  · unfold blankCol
    rw [getCol_setColVals_self]
    simp only [nrows_setColVals]

theorem getCol_kwFold {df1 : DataFrame} {iv : List Cell} {nr : Nat} {tgt : String}
    (ht : tgt ∈ interest_columns)
    (hcol : getCol df1 tgt = some (List.replicate nr (some []))) :
    getCol (interest_keywords.foldl (fun d kc => setColVals d kc.2
      (List.zipWith (fun ivc tv => if cellMatches ivc kc.1 = true then some "YES".data else tv)
        iv (colOf d kc.2))) df1) tgt =
      some (List.zipWith (fun ivc tv =>
        if cellMatches ivc (keywordFor tgt) = true then some "YES".data else tv)
        iv (List.replicate nr (some []))) := by
  have h4 : tgt = "INTEREST_YOUTH" ∨ tgt = "INTEREST_ADULT" ∨
      tgt = "INTEREST_OUTDOOR" ∨ tgt = "INTEREST_FITNESS" := by
    simpa [interest_columns] using ht
  simp only [interest_keywords, List.foldl_cons, List.foldl_nil]
  rcases h4 with he | he | he | he <;> subst he
  · rw [getCol_setColVals_ne _ _ (by decide), getCol_setColVals_self]
    unfold colOf
    rw [getCol_setColVals_ne _ _ (by decide), getCol_setColVals_ne _ _ (by decide), hcol]
    rfl
  · rw [getCol_setColVals_ne _ _ (by decide), getCol_setColVals_ne _ _ (by decide),
      getCol_setColVals_ne _ _ (by decide), getCol_setColVals_self]
    unfold colOf
    rw [hcol]
    rfl
  · rw [getCol_setColVals_self]
    unfold colOf
    rw [getCol_setColVals_ne _ _ (by decide), getCol_setColVals_ne _ _ (by decide),
      getCol_setColVals_ne _ _ (by decide), hcol]
    rfl
  · rw [getCol_setColVals_ne _ _ (by decide), getCol_setColVals_ne _ _ (by decide),
      getCol_setColVals_self]
    unfold colOf
    rw [getCol_setColVals_ne _ _ (by decide), hcol]
    rfl

theorem ite_cell_single (b : Bool) :
    (if b = true then some "YES".data else some ([] : Str)) =
    some (if b = true then "YES".data else []) := by
  cases b <;> rfl

theorem ite_cell_or (b1 b2 : Bool) :
    (if b2 = true then some "YES".data else if b1 = true then some "YES".data else some ([] : Str)) =
    some (if (b1 || b2) = true then "YES".data else []) := by
  cases b1 <;> cases b2 <;> rfl

theorem hasCol_process_interests_target (df : DataFrame) {tgt : String}
    (ht : tgt ∈ interest_columns) : hasCol (process_interests df) tgt = true := by
  obtain ⟨hne1, hne2, hne3⟩ :=
    (show ∀ t ∈ interest_columns, t ≠ "Interest" ∧ t ≠ "interest" ∧
      t ≠ "Youth Programs Interest" by decide) tgt ht
  have hbase : hasCol (interest_columns.foldl blankCol df) tgt = true :=
    hasCol_foldl_blankCol_of_mem ht
  cases hI1 : findInterestCol (interest_columns.foldl blankCol df) with
  | some icol =>
    simp only [process_interests, hI1]
    have hticol : ¬ (icol = tgt) := by
      rcases findInterestCol_cases hI1 with he | he <;> subst he
      · exact fun e => hne1 e.symm
      · exact fun e => hne2 e.symm
    have h1 : hasCol (dropCol (interest_keywords.foldl (fun d kc => setColVals d kc.2
        (List.zipWith (fun ivc tv => if cellMatches ivc kc.1 = true then some "YES".data else tv)
          (colOf (interest_columns.foldl blankCol df) icol) (colOf d kc.2)))
        (interest_columns.foldl blankCol df)) icol) tgt = true := by
      rw [hasCol_dropCol_ne _ hticol]
      exact hasCol_foldl_kw_mono hbase
    split
    · rw [hasCol_dropCol_ne _ (fun e => hne3 e.symm)]
      exact hasCol_setColVals_mono h1
    · exact h1
  | none =>
    simp only [process_interests, hI1]
    split
    · rw [hasCol_dropCol_ne _ (fun e => hne3 e.symm)]
      exact hasCol_setColVals_mono hbase
    · exact hbase

theorem colOf_setColVals_self (df : DataFrame) (n : String) (vs : List Cell) :
    colOf (setColVals df n vs) n = vs := by
  unfold colOf
  rw [getCol_setColVals_self]
  rfl

theorem colOf_setColVals_ne (df : DataFrame) {m n : String} (vs : List Cell)
    (hmn : m ≠ n) : colOf (setColVals df m vs) n = colOf df n := by
  unfold colOf
  rw [getCol_setColVals_ne df vs hmn]

theorem colOf_dropCol_ne (df : DataFrame) {m n : String} (hmn : m ≠ n) :
    colOf (dropCol df m) n = colOf df n := by
  unfold colOf
  rw [getCol_dropCol_ne df hmn]

theorem colOf_eq_of_getCol {df : DataFrame} {n : String} {vs : List Cell}
    (h : getCol df n = some vs) : colOf df n = vs := by
  unfold colOf
  rw [h]
  rfl

theorem colOf_congr {df df2 : DataFrame} {n : String}
    (h : getCol df n = getCol df2 n) : colOf df n = colOf df2 n := by
  unfold colOf
  rw [h]

theorem hasCol_foldl_kw_ne {l : List (Str × String)} {d : DataFrame} {iv : List Cell}
    {n : String} (h : ∀ kc ∈ l, kc.2 ≠ n) :
    hasCol (l.foldl (fun d kc => setColVals d kc.2
      (List.zipWith (fun ivc tv => if cellMatches ivc kc.1 = true then some "YES".data else tv)
        iv (colOf d kc.2))) d) n = hasCol d n := by
  unfold hasCol
  rw [getCol_foldl_kw_ne h]

theorem getCellD_process_interests (df : DataFrame) (hw : df.WF) {i : Nat}
    (hi : i < df.nrows) {tgt : String} (ht : tgt ∈ interest_columns) :
    getCellD (process_interests df) tgt i =
      some (if interestMark df i tgt = true then "YES".data else []) := by
  obtain ⟨hne1, hne2, hne3⟩ :=
    (show ∀ t ∈ interest_columns, t ≠ "Interest" ∧ t ≠ "interest" ∧
      t ≠ "Youth Programs Interest" by decide) tgt ht
  have hw1 : (interest_columns.foldl blankCol df).WF := WF_foldl_blankCol _ hw
  have hn1 : (interest_columns.foldl blankCol df).nrows = df.nrows := nrows_foldl_blankCol _ df
  have hblank : colOf (interest_columns.foldl blankCol df) tgt =
      List.replicate df.nrows (some []) := by
    unfold colOf
    rw [getCol_blankInterests_of_mem ht]
    rfl
  have hyhas : hasCol (interest_columns.foldl blankCol df) "Youth Programs Interest" =
      hasCol df "Youth Programs Interest" := hasCol_foldl_blankCol_ne (by decide)
  have hyv : colOf (interest_columns.foldl blankCol df) "Youth Programs Interest" =
      colOf df "Youth Programs Interest" := by
    unfold colOf
    rw [getCol_foldl_blankCol_ne (by decide)]
  cases hI : findInterestCol df with
  | none =>
    have hI1 : findInterestCol (interest_columns.foldl blankCol df) = none := by
      rw [findInterestCol_foldl_blank, hI]
    have hmark : interestMark df i tgt =
        (if tgt = "INTEREST_YOUTH" then
          (if hasCol df "Youth Programs Interest" = true then
            youthYes (getCellD df "Youth Programs Interest" i) else false)
         else false) := by
      unfold interestMark
      rw [hI]
      simp
    simp only [process_interests, hI1]
    split
    · rename_i hy
      have hydf : hasCol df "Youth Programs Interest" = true := by rw [← hyhas]; exact hy
      have hylen : (colOf (interest_columns.foldl blankCol df)
          "Youth Programs Interest").length = df.nrows := by
        rw [← hn1]
        exact colOf_length hw1 hy
      by_cases hIY : tgt = "INTEREST_YOUTH"
      · subst hIY
        unfold getCellD
        rw [colOf_dropCol_ne _ (fun e => hne3 e.symm), colOf_setColVals_self, hblank,
          getD_zipWith _ _ _ i (by omega) (by rw [List.length_replicate]; omega)
            none (some []) none,
          getD_replicate _ _ _ hi, hyv, ite_cell_single, hmark, if_pos rfl, if_pos hydf]
        rfl
      · unfold getCellD
        rw [colOf_dropCol_ne _ (fun e => hne3 e.symm),
          colOf_setColVals_ne _ _ (fun e => hIY e.symm), hblank,
          getD_replicate _ _ _ hi, hmark, if_neg hIY]
        rfl
    · rename_i hy
      have hynot : hasCol df "Youth Programs Interest" = false := by
        rw [← hyhas]
        revert hy
        cases hasCol (interest_columns.foldl blankCol df) "Youth Programs Interest" <;> simp
      unfold getCellD
      rw [hblank, getD_replicate _ _ _ hi, hmark]
      by_cases hIY : tgt = "INTEREST_YOUTH"
      · rw [if_pos hIY, if_neg (show ¬ (hasCol df "Youth Programs Interest" = true) by
          rw [hynot]; simp)]
        rfl
      · rw [if_neg hIY]
        rfl
  | some icol =>
    have hI1 : findInterestCol (interest_columns.foldl blankCol df) = some icol := by
      rw [findInterestCol_foldl_blank, hI]
    have hic := findInterestCol_cases hI
    have hticol : ¬ (icol = tgt) := by
      rcases hic with he | he <;> subst he
      · exact fun e => hne1 e.symm
      · exact fun e => hne2 e.symm
    have hicolni : icol ∉ interest_columns := by
      rcases hic with he | he <;> subst he <;> decide
    have hicy : ¬ (icol = "Youth Programs Interest") := by
      rcases hic with he | he <;> subst he <;> decide
    have hiv_eq : colOf (interest_columns.foldl blankCol df) icol = colOf df icol := by
      unfold colOf
      rw [getCol_foldl_blankCol_ne hicolni]
    have hICdf : hasCol df icol = true := by
      have h2 := findInterestCol_hasCol hI1
      rw [hasCol_foldl_blankCol_ne hicolni] at h2
      exact h2
    have hivlen : (colOf (interest_columns.foldl blankCol df) icol).length = df.nrows := by
      rw [hiv_eq]
      exact colOf_length hw hICdf
    have hkw : colOf (interest_keywords.foldl (fun d kc => setColVals d kc.2
        (List.zipWith (fun ivc tv => if cellMatches ivc kc.1 = true then some "YES".data else tv)
          (colOf (interest_columns.foldl blankCol df) icol) (colOf d kc.2)))
        (interest_columns.foldl blankCol df)) tgt =
        List.zipWith (fun ivc tv =>
          if cellMatches ivc (keywordFor tgt) = true then some "YES".data else tv)
        (colOf (interest_columns.foldl blankCol df) icol)
        (List.replicate df.nrows (some [])) :=
      colOf_eq_of_getCol (getCol_kwFold ht (getCol_blankInterests_of_mem ht))
    have hkwY : ∀ kc ∈ interest_keywords, kc.2 ≠ "Youth Programs Interest" := by decide
    have hkwIC : ∀ kc ∈ interest_keywords, kc.2 ≠ icol := by
      rcases hic with he | he <;> subst he <;> decide
    have hmark : interestMark df i tgt =
        (cellMatches (getCellD df icol i) (keywordFor tgt) ||
          (if tgt = "INTEREST_YOUTH" then
            (if hasCol df "Youth Programs Interest" = true then
              youthYes (getCellD df "Youth Programs Interest" i) else false)
           else false)) := by
      unfold interestMark
      rw [hI]
    have hivgd : (colOf (interest_columns.foldl blankCol df) icol).getD i none =
        getCellD df icol i := by
      rw [hiv_eq]
      rfl
    simp only [process_interests, hI1]
    split
    · rename_i hy
      have hy2 : hasCol df "Youth Programs Interest" = true := by
        rw [← hyhas]
        have h3 := hy
        rw [hasCol_dropCol_ne _ hicy, hasCol_foldl_kw_ne hkwY] at h3
        exact h3
      have hyv2 : colOf (dropCol (interest_keywords.foldl (fun d kc => setColVals d kc.2
          (List.zipWith (fun ivc tv => if cellMatches ivc kc.1 = true then some "YES".data else tv)
            (colOf (interest_columns.foldl blankCol df) icol) (colOf d kc.2)))
          (interest_columns.foldl blankCol df)) icol) "Youth Programs Interest" =
          colOf df "Youth Programs Interest" := by
        rw [colOf_dropCol_ne _ hicy]
        exact (colOf_congr (getCol_foldl_kw_ne hkwY)).trans
          (colOf_congr (getCol_foldl_blankCol_ne (by decide)))
      have hylen2 : (colOf df "Youth Programs Interest").length = df.nrows :=
        colOf_length hw hy2
      by_cases hIY : tgt = "INTEREST_YOUTH"
      · subst hIY
        unfold getCellD
        rw [colOf_dropCol_ne _ (fun e => hne3 e.symm), colOf_setColVals_self, hyv2,
          colOf_dropCol_ne _ hticol, hkw,
          getD_zipWith _ _ _ i (by omega)
            (by rw [List.length_zipWith, List.length_replicate, hivlen]; omega)
            none none none,
          getD_zipWith _ _ _ i (by omega) (by rw [List.length_replicate]; omega)
            none (some []) none,
          getD_replicate _ _ _ hi, hivgd, ite_cell_or, hmark, if_pos rfl, if_pos hy2]
        rfl
      · unfold getCellD
        rw [colOf_dropCol_ne _ (fun e => hne3 e.symm),
          colOf_setColVals_ne _ _ (fun e => hIY e.symm), colOf_dropCol_ne _ hticol, hkw,
          getD_zipWith _ _ _ i (by omega) (by rw [List.length_replicate]; omega)
            none (some []) none,
          getD_replicate _ _ _ hi, hivgd, ite_cell_single, hmark, if_neg hIY]
        simp
    · rename_i hy
      have hynot : hasCol df "Youth Programs Interest" = false := by
        rw [← hyhas]
        rw [hasCol_dropCol_ne _ hicy, hasCol_foldl_kw_ne hkwY] at hy
        revert hy
        cases hasCol (interest_columns.foldl blankCol df) "Youth Programs Interest" <;> simp
      unfold getCellD
      rw [colOf_dropCol_ne _ hticol, hkw,
        getD_zipWith _ _ _ i (by omega) (by rw [List.length_replicate]; omega)
          none (some []) none,
        getD_replicate _ _ _ hi, hivgd, ite_cell_single, hmark]
      by_cases hIY : tgt = "INTEREST_YOUTH"
      · rw [if_pos hIY, if_neg (show ¬ (hasCol df "Youth Programs Interest" = true) by
          rw [hynot]; simp)]
        simp
      · rw [if_neg hIY]
        simp

/-- C6: interest extraction - after `process_interests` the four INTEREST
columns all exist (initialized for every row whether or not a source column
exists), and each cell is "YES" exactly when a source marks it: the
free-text interest cell contains the column's keyword case-insensitively
(several keywords may match one cell), or for INTEREST_YOUTH the youth
column says yes; otherwise the cell is the empty string. -/
theorem spec_C6_interest_extraction (df : DataFrame) (hw : df.WF) (i : Nat)
    (hi : i < df.nrows) (tgt : String) (ht : tgt ∈ interest_columns) :
    hasCol (process_interests df) tgt = true ∧
    getCellD (process_interests df) tgt i =
      some (if interestMark df i tgt = true then "YES".data else []) :=
  ⟨hasCol_process_interests_target df ht, getCellD_process_interests df hw hi ht⟩

/-- C6 witness: the cell "Adult Climbing Programs, Fitness + Yoga" sets
INTEREST_ADULT and INTEREST_FITNESS to YES and leaves INTEREST_YOUTH and
INTEREST_OUTDOOR empty; the no-text row leaves all four empty. -/
theorem spec_C6_interest_extraction_witness :
    DataFrame.WF interestExampleDf ∧
    getCellD (process_interests interestExampleDf) "INTEREST_ADULT" 0 = some "YES".data ∧
    getCellD (process_interests interestExampleDf) "INTEREST_FITNESS" 0 = some "YES".data ∧
    getCellD (process_interests interestExampleDf) "INTEREST_YOUTH" 0 = some [] ∧
    getCellD (process_interests interestExampleDf) "INTEREST_OUTDOOR" 0 = some [] ∧
    getCellD (process_interests interestExampleDf) "INTEREST_YOUTH" 1 = some [] ∧
    getCellD (process_interests interestExampleDf) "INTEREST_ADULT" 1 = some [] ∧
    getCellD (process_interests interestExampleDf) "INTEREST_OUTDOOR" 1 = some [] ∧
    getCellD (process_interests interestExampleDf) "INTEREST_FITNESS" 1 = some [] :=
  ⟨by decide,
   ((spec_C6_interest_extraction interestExampleDf (by decide) 0 (by decide)
     "INTEREST_ADULT" (by decide)).2).trans (by decide),
   ((spec_C6_interest_extraction interestExampleDf (by decide) 0 (by decide)
     "INTEREST_FITNESS" (by decide)).2).trans (by decide),
   ((spec_C6_interest_extraction interestExampleDf (by decide) 0 (by decide)
     "INTEREST_YOUTH" (by decide)).2).trans (by decide),
   ((spec_C6_interest_extraction interestExampleDf (by decide) 0 (by decide)
     "INTEREST_OUTDOOR" (by decide)).2).trans (by decide),
   ((spec_C6_interest_extraction interestExampleDf (by decide) 1 (by decide)
     "INTEREST_YOUTH" (by decide)).2).trans (by decide),
   ((spec_C6_interest_extraction interestExampleDf (by decide) 1 (by decide)
     "INTEREST_ADULT" (by decide)).2).trans (by decide),
   ((spec_C6_interest_extraction interestExampleDf (by decide) 1 (by decide)
     "INTEREST_OUTDOOR" (by decide)).2).trans (by decide),
   ((spec_C6_interest_extraction interestExampleDf (by decide) 1 (by decide)
     "INTEREST_FITNESS" (by decide)).2).trans (by decide)⟩

/-- C9 counterexample: a column named "INTEREST" - case-insensitively equal
to "Interest" - is neither keyword-matched nor removed by the interest
extractor, contradicting the claim. -/
theorem spec_C9_counterexample :
    lowerStr "INTEREST".data = lowerStr "Interest".data ∧
    hasCol (process_interests ⟨1, [("INTEREST", [some "Fitness + Yoga".data])]⟩)
      "INTEREST" = true ∧
    getCellD (process_interests ⟨1, [("INTEREST", [some "Fitness + Yoga".data])]⟩)
      "INTEREST_FITNESS" 0 = some [] :=
  ⟨by decide, by decide, by decide⟩

/-- C9 (amended): the interest extractor recognizes the free-text column only
under the exact names "Interest" and (failing that) "interest"; such a column
is consumed (removed), while a column under any other name - including other
capitalizations like "INTEREST" - passes through the stage untouched. -/
theorem spec_C9_exact_name_recognition (df : DataFrame) :
    (hasCol df "Interest" = true → hasCol (process_interests df) "Interest" = false) ∧
    (hasCol df "Interest" = false → hasCol df "interest" = true →
      hasCol (process_interests df) "interest" = false) ∧
    (∀ n : String, n ≠ "Interest" → n ≠ "interest" → n ≠ "Youth Programs Interest" →
      n ∉ interest_columns → getCol (process_interests df) n = getCol df n) := by
  refine ⟨?_, ?_, ?_⟩
  · intro h
    have hI1 : findInterestCol (interest_columns.foldl blankCol df) = some "Interest" := by
      unfold findInterestCol
      rw [hasCol_foldl_blankCol_ne (by decide), if_pos h]
    simp only [process_interests, hI1]
    split
    · rw [hasCol_dropCol_ne _ (by decide), hasCol_setColVals_ne _ _ (by decide),
        hasCol_dropCol_self]
    · rw [hasCol_dropCol_self]
  · intro h1 h2
    have hI1 : findInterestCol (interest_columns.foldl blankCol df) = some "interest" := by
      unfold findInterestCol
      rw [hasCol_foldl_blankCol_ne (by decide), hasCol_foldl_blankCol_ne (by decide),
        if_neg (by rw [h1]; simp), if_pos h2]
    simp only [process_interests, hI1]
    split
    · rw [hasCol_dropCol_ne _ (by decide), hasCol_setColVals_ne _ _ (by decide),
        hasCol_dropCol_self]
    · rw [hasCol_dropCol_self]
  · intro n hn1 hn2 hn3 hni
    have hIYn : ¬ ("INTEREST_YOUTH" = n) := fun e => hni (by rw [← e]; decide)
    have hkwn : ∀ kc ∈ interest_keywords, kc.2 ≠ n :=
      fun kc hk e => hni (e ▸ interest_keyword_targets kc hk)
    have hbn : getCol (interest_columns.foldl blankCol df) n = getCol df n :=
      getCol_foldl_blankCol_ne hni
    cases hI1 : findInterestCol (interest_columns.foldl blankCol df) with
    | some icol =>
      have hicn : ¬ (icol = n) := by
        rcases findInterestCol_cases hI1 with he | he <;> subst he
        · exact fun e => hn1 e.symm
        · exact fun e => hn2 e.symm
      simp only [process_interests, hI1]
      split
      · rw [getCol_dropCol_ne _ (fun e => hn3 e.symm), getCol_setColVals_ne _ _ hIYn,
          getCol_dropCol_ne _ hicn, getCol_foldl_kw_ne hkwn, hbn]
      · rw [getCol_dropCol_ne _ hicn, getCol_foldl_kw_ne hkwn, hbn]
    | none =>
      simp only [process_interests, hI1]
      split
      · rw [getCol_dropCol_ne _ (fun e => hn3 e.symm), getCol_setColVals_ne _ _ hIYn, hbn]
      · exact hbn

/-- C9 witness: with both "Interest" and "INTEREST" present, the exactly
named column is consumed while "INTEREST" passes through unchanged. -/
theorem spec_C9_exact_name_recognition_witness :
    hasCol interestUpperDf "Interest" = true ∧
    hasCol (process_interests interestUpperDf) "Interest" = false ∧
    getCol (process_interests interestUpperDf) "INTEREST" = getCol interestUpperDf "INTEREST" :=
  ⟨by decide, (spec_C9_exact_name_recognition interestUpperDf).1 (by decide),
    (spec_C9_exact_name_recognition interestUpperDf).2.2 "INTEREST"
      (by decide) (by decide) (by decide) (by decide)⟩

/-! ## Second-run fixpoint machinery for idempotence -/

theorem map_eq_self_of {α : Type} {f : α → α} {l : List α} (h : ∀ x ∈ l, f x = x) :
    l.map f = l := by
  induction l with
  | nil => rfl
  | cons a t ih =>
    rw [List.map_cons, h a (List.mem_cons_self a t),
      ih (fun x hx => h x (List.mem_cons_of_mem a hx))]

theorem mem_zipWith {α β γ : Type} {f : α → β → γ} {xs : List α} {ys : List β} {c : γ}
    (h : c ∈ List.zipWith f xs ys) : ∃ x y, c = f x y := by
  induction xs generalizing ys with
  | nil => simp at h
  | cons x xt ih =>
    cases ys with
    | nil => simp at h
    | cons y yt =>
      rw [List.zipWith_cons_cons] at h
      rcases List.mem_cons.1 h with he | ht
      · exact ⟨x, y, he⟩
      · exact ih ht

theorem zipWith_eq_left {α β : Type} {f : α → β → α} {xs : List α} {ys : List β}
    (h : ∀ x ∈ xs, ∀ y, f x y = x) (hl : xs.length ≤ ys.length) :
    List.zipWith f xs ys = xs := by
  induction xs generalizing ys with
  | nil => rfl
  | cons x xt ih =>
    cases ys with
    | nil => simp at hl
    | cons y yt =>
      rw [List.zipWith_cons_cons, h x (List.mem_cons_self x xt) y,
        ih (fun x2 h2 y2 => h x2 (List.mem_cons_of_mem x h2) y2) (by simpa using hl)]

theorem filter_idem (p : Char → Bool) (l : Str) : (l.filter p).filter p = l.filter p := by
  induction l with
  | nil => rfl
  | cons a t ih =>
    by_cases h : p a = true
    · simp [List.filter_cons, h, ih]
    · simp [List.filter_cons, h, ih]

theorem lookupMap_mem {m : List (Str × Str)} {v w : Str} (h : lookupMap m v = some w) :
    (v, w) ∈ m := by
  induction m with
  | nil => simp [lookupMap] at h
  | cons p t ih =>
    simp only [lookupMap] at h
    by_cases hp : p.1 = v
    · rw [if_pos hp] at h
      injection h with h2
      have he : (v, w) = p := by
        obtain ⟨p1, p2⟩ := p
        simp only at hp h2
        rw [hp, h2]
      rw [he]
      exact List.mem_cons_self p t
    · rw [if_neg hp] at h
      exact List.mem_cons_of_mem p (ih h)

theorem lookupStr_mem {l : List (String × String)} {n v : String}
    (h : lookupStr n l = some v) : (n, v) ∈ l := by
  induction l with
  | nil => simp [lookupStr] at h
  | cons p t ih =>
    simp only [lookupStr] at h
    by_cases hp : p.1 = n
    · rw [if_pos hp] at h
      injection h with h2
      have he : (n, v) = p := by
        obtain ⟨p1, p2⟩ := p
        simp only at hp h2
        rw [hp, h2]
      rw [he]
      exact List.mem_cons_self p t
    · rw [if_neg hp] at h
      exact List.mem_cons_of_mem p (ih h)

theorem badge_vals_fix : ∀ p ∈ badge_map, p.2 ≠ [] ∧ lookupMap badge_map p.2 = none := by
  decide

theorem location_vals_fix : ∀ p ∈ location_map, lookupMap location_map p.2 = none := by
  decide

/-- The badge transformation (default GUEST, then map) is idempotent per cell. -/
theorem badge_cell_fix (c : Cell) :
    mapCell badge_map (badgeFill (mapCell badge_map (badgeFill c))) =
      mapCell badge_map (badgeFill c) := by
  have hguest : mapCell badge_map (badgeFill (some "GUEST".data)) = some "GUEST".data := by
    decide
  cases c with
  | none => exact congrArg (fun x => mapCell badge_map (badgeFill x)) (by decide : mapCell badge_map (badgeFill none) = some "GUEST".data) |>.trans hguest
  | some v =>
    by_cases hv : v = []
    · subst hv
      decide
    · have h1 : badgeFill (some v) = some v := by
        simp only [badgeFill, if_neg hv]
      rw [h1]
      cases hl : lookupMap badge_map v with
      | some w =>
        have h2 : mapCell badge_map (some v) = some w := by
          simp only [mapCell, hl]
        obtain ⟨hw1, hw2⟩ := badge_vals_fix (v, w) (lookupMap_mem hl)
        simp only at hw1 hw2
        rw [h2]
        have h3 : badgeFill (some w) = some w := by
          simp only [badgeFill, if_neg hw1]
        rw [h3]
        simp only [mapCell, hw2]
      | none =>
        have h2 : mapCell badge_map (some v) = some v := by
          simp only [mapCell, hl]
        rw [h2, h1, h2]

/-- The location mapping is idempotent per cell. -/
theorem location_cell_fix (c : Cell) :
    mapCell location_map (mapCell location_map c) = mapCell location_map c := by
  cases c with
  | none => rfl
  | some v =>
    cases hl : lookupMap location_map v with
    | some w =>
      have h2 : mapCell location_map (some v) = some w := by
        simp only [mapCell, hl]
      have hw := location_vals_fix (v, w) (lookupMap_mem hl)
      simp only at hw
      rw [h2]
      simp only [mapCell, hw]
    | none =>
      have h2 : mapCell location_map (some v) = some v := by
        simp only [mapCell, hl]
      rw [h2, h2]

/-- Phone cleaning is idempotent per cell. -/
theorem phone_cell_fix (c : Cell) : clean_phone (some (clean_phone c)) = clean_phone c := by
  cases c with
  | none => rfl
  | some s =>
    by_cases hs : s = []
    · subst hs
      rfl
    · have h1 : clean_phone (some s) = s.filter Char.isDigit := by
        simp only [clean_phone, if_neg hs]
      rw [h1]
      by_cases ht : s.filter Char.isDigit = []
      · rw [ht]
        rfl
      · simp only [clean_phone, if_neg ht, filter_idem]

theorem replaceFirst_replaceFirst {n : String} {vs vs2 : List Cell}
    {cols : List (String × List Cell)} :
    replaceFirst n vs2 (replaceFirst n vs cols) = replaceFirst n vs2 cols := by
  induction cols with
  | nil => rfl
  | cons c t ih =>
    simp only [replaceFirst]
    by_cases hc : c.1 = n
    · rw [if_pos hc]
      simp [replaceFirst, hc]
    · rw [if_neg hc]
      simp only [replaceFirst, if_neg hc, ih]

theorem replaceFirst_append_fresh {n : String} {vs vs2 : List Cell}
    {cols : List (String × List Cell)} (h : lookupCol n cols = none) :
    replaceFirst n vs2 (cols ++ [(n, vs)]) = cols ++ [(n, vs2)] := by
  induction cols with
  | nil => simp [replaceFirst]
  | cons c t ih =>
    simp only [lookupCol] at h
    by_cases hc : c.1 = n
    · rw [if_pos hc] at h
      exact absurd h (by simp)
    · rw [if_neg hc] at h
      simp only [List.cons_append, replaceFirst, if_neg hc]
      exact congrArg (c :: ·) (ih h)

theorem setColVals_setColVals (df : DataFrame) (n : String) (vs vs2 : List Cell) :
    setColVals (setColVals df n vs) n vs2 = setColVals df n vs2 := by
  have h2 : hasCol (setColVals df n vs) n = true := hasCol_setColVals_self df n vs
  by_cases h : hasCol df n = true
  · have e1 : setColVals df n vs = { df with cols := replaceFirst n vs df.cols } := by
      unfold setColVals
      rw [if_pos h]
    rw [e1] at h2 ⊢
    unfold setColVals
    rw [if_pos h2, if_pos h]
    simp only [replaceFirst_replaceFirst]
  · have hn : lookupCol n df.cols = none := by
      unfold hasCol getCol at h
      cases hl : lookupCol n df.cols with
      | none => rfl
      | some v => rw [hl] at h; simp at h
    have e1 : setColVals df n vs = { df with cols := df.cols ++ [(n, vs)] } := by
      unfold setColVals
      rw [if_neg h]
    rw [e1] at h2 ⊢
    unfold setColVals
    rw [if_pos h2, if_neg h]
    simp only [replaceFirst_append_fresh hn]

theorem getCol_cmSub_ne (cm : String × List (Str × Str)) (df : DataFrame) {n : String}
    (h : cm.1 ≠ n) : getCol (cmSub cm df) n = getCol df n := by
  unfold cmSub
  split
  · split
    · rw [getCol_setColVals_ne _ _ h, getCol_setColVals_ne _ _ h]
    · rw [getCol_setColVals_ne _ _ h]
  · rfl

theorem getCol_smsStage_ne (df : DataFrame) {n : String} (h : "SMS" ≠ n) :
    getCol (smsStage df) n = getCol df n := by
  unfold smsStage
  split
  · rw [getCol_setColVals_ne _ _ h]
  · rfl

theorem getCol_dateSub_ne (ff : Str → Option SDate) (cy : Int) (fld : String)
    (df : DataFrame) {n : String} (h : fld ≠ n) :
    getCol (dateSub ff cy fld df) n = getCol df n := by
  unfold dateSub
  split
  · split
    · rw [getCol_setColVals_ne _ _ h]
    · rw [getCol_setColVals_ne _ _ h]
  · rfl

theorem dateStage_eq (ff : Str → Option SDate) (cy : Int) (df : DataFrame) :
    dateStage ff cy df = dateSub ff cy "LAST_VISIT" (dateSub ff cy "BDAY" df) := rfl

theorem applyCellMappings_eq (df : DataFrame) :
    applyCellMappings df =
      cmSub ("LOCATION", location_map) (cmSub ("BADGE", badge_map) df) := rfl

theorem getCol_cmSub_badge {df : DataFrame} (h : hasCol df "BADGE" = true) :
    getCol (cmSub ("BADGE", badge_map) df) "BADGE" =
      some (((colOf df "BADGE").map badgeFill).map (mapCell badge_map)) := by
  unfold cmSub
  rw [if_pos h, if_pos rfl]
  rw [getCol_setColVals_self, colOf_setColVals_self]

theorem getCol_cmSub_location {df : DataFrame} (h : hasCol df "LOCATION" = true) :
    getCol (cmSub ("LOCATION", location_map) df) "LOCATION" =
      some ((colOf df "LOCATION").map (mapCell location_map)) := by
  unfold cmSub
  rw [if_pos h, if_neg (by decide : ¬ (("LOCATION", location_map).1 = "BADGE"))]
  rw [getCol_setColVals_self]

theorem getCol_smsStage_sms {df : DataFrame} (h : hasCol df "SMS" = true) :
    getCol (smsStage df) "SMS" =
      some ((colOf df "SMS").map (fun c => some (clean_phone c))) := by
  unfold smsStage
  rw [if_pos h, getCol_setColVals_self]

theorem cmSub_ne_identity (cm : String × List (Str × Str)) {df : DataFrame}
    (h : hasCol df cm.1 = false) : cmSub cm df = df := by
  unfold cmSub
  rw [if_neg (by rw [h]; simp)]

theorem hasCol_cmSub_ne (cm : String × List (Str × Str)) (df : DataFrame) {n : String}
    (h : cm.1 ≠ n) : hasCol (cmSub cm df) n = hasCol df n := by
  unfold hasCol
  rw [getCol_cmSub_ne cm df h]

theorem hasCol_smsStage_ne (df : DataFrame) {n : String} (h : "SMS" ≠ n) :
    hasCol (smsStage df) n = hasCol df n := by
  unfold hasCol
  rw [getCol_smsStage_ne df h]

theorem hasCol_dateSub_ne (ff : Str → Option SDate) (cy : Int) (fld : String)
    (df : DataFrame) {n : String} (h : fld ≠ n) :
    hasCol (dateSub ff cy fld df) n = hasCol df n := by
  unfold hasCol
  rw [getCol_dateSub_ne ff cy fld df h]

/-! ## Second-run identities (idempotence analysis) -/

theorem blankInterests_eq (df : DataFrame) :
    blankInterests df = interest_columns.foldl blankCol df := rfl

theorem getCol_none_of_not {df : DataFrame} {n : String} (h : ¬ (hasCol df n = true)) :
    getCol df n = none := by
  cases hg : getCol df n with
  | none => rfl
  | some v =>
    exfalso
    apply h
    unfold hasCol
    rw [hg]
    rfl

theorem colOf_eq_nil_of_none {df : DataFrame} {n : String} (h : getCol df n = none) :
    colOf df n = [] := by
  unfold colOf
  rw [h]
  rfl

theorem mem_setColVals {c : String × List Cell} {df : DataFrame} {n : String} {vs : List Cell}
    (h : c ∈ (setColVals df n vs).cols) : c ∈ df.cols ∨ c.1 = n := by
  unfold setColVals at h
  by_cases hb : hasCol df n = true
  · rw [if_pos hb] at h
    rcases mem_replaceFirst h with h1 | h1
    · exact Or.inl h1
    · exact Or.inr (by rw [h1])
  · rw [if_neg hb] at h
    rcases List.mem_append.1 h with h1 | h1
    · exact Or.inl h1
    · simp only [List.mem_singleton] at h1
      exact Or.inr (by rw [h1])

theorem header_keys_not_valid : ∀ p ∈ header_mappings, validCol p.1 = false := by decide

theorem renameFn_valid {n : String} (h : validCol n = true) : renameFn n = n := by
  unfold renameFn
  cases hl : lookupStr n header_mappings with
  | none => rfl
  | some v =>
    exfalso
    have hm : validCol n = false := header_keys_not_valid (n, v) (lookupStr_mem hl)
    rw [hm] at h
    exact Bool.noConfusion h

theorem renameHeaders_id {df : DataFrame} (h : ∀ c ∈ df.cols, validCol c.1 = true) :
    renameHeaders df = df := by
  unfold renameHeaders
  have he : df.cols.map (fun c => (renameFn c.1, c.2)) = df.cols := by
    apply map_eq_self_of
    intro c hc
    show (renameFn c.1, c.2) = c
    rw [renameFn_valid (h c hc)]
  rw [he]

theorem hasCol_false_of_valid {df : DataFrame} (h : ∀ c ∈ df.cols, validCol c.1 = true)
    {n : String} (hn : validCol n = false) : hasCol df n = false := by
  cases hc : hasCol df n with
  | false => rfl
  | true =>
    exfalso
    obtain ⟨vs, hv⟩ := hasCol_iff_getCol.1 hc
    have h2 : validCol n = true := h (n, vs) (getCol_mem hv)
    rw [hn] at h2
    exact Bool.noConfusion h2

theorem process_interests_id {df : DataFrame}
    (h1 : hasCol df "Interest" = false) (h2 : hasCol df "interest" = false)
    (h3 : hasCol df "Youth Programs Interest" = false) :
    process_interests df = interest_columns.foldl blankCol df := by
  have hI : findInterestCol (interest_columns.foldl blankCol df) = none := by
    unfold findInterestCol
    rw [hasCol_foldl_blankCol_ne (show "Interest" ∉ interest_columns by decide),
      hasCol_foldl_blankCol_ne (show "interest" ∉ interest_columns by decide), h1, h2]
    rfl
  simp only [process_interests, hI]
  rw [if_neg (show ¬ (hasCol (interest_columns.foldl blankCol df)
      "Youth Programs Interest" = true) by
    rw [hasCol_foldl_blankCol_ne
      (show "Youth Programs Interest" ∉ interest_columns by decide), h3]
    simp)]

theorem cmSub_badge_id {df : DataFrame}
    (h : ∀ c ∈ colOf df "BADGE", mapCell badge_map (badgeFill c) = c) :
    cmSub ("BADGE", badge_map) df = df := by
  by_cases hb : hasCol df "BADGE" = true
  · obtain ⟨vs, hv⟩ := hasCol_iff_getCol.1 hb
    have hcol : colOf df "BADGE" = vs := colOf_eq_of_getCol hv
    have hfix : ((colOf df "BADGE").map badgeFill).map (mapCell badge_map) =
        colOf df "BADGE" := by
      rw [List.map_map]
      exact map_eq_self_of (fun c hc => h c hc)
    unfold cmSub
    rw [if_pos hb, if_pos rfl]
    show setColVals (setColVals df "BADGE" (List.map badgeFill (colOf df "BADGE"))) "BADGE"
        (List.map (mapCell badge_map)
          (colOf (setColVals df "BADGE" (List.map badgeFill (colOf df "BADGE"))) "BADGE")) = df
    rw [colOf_setColVals_self, setColVals_setColVals, hfix, hcol]
    exact setColVals_self hv
  · exact cmSub_ne_identity _ (by simpa using hb)

theorem cmSub_location_id {df : DataFrame}
    (h : ∀ c ∈ colOf df "LOCATION", mapCell location_map c = c) :
    cmSub ("LOCATION", location_map) df = df := by
  by_cases hb : hasCol df "LOCATION" = true
  · obtain ⟨vs, hv⟩ := hasCol_iff_getCol.1 hb
    have hcol : colOf df "LOCATION" = vs := colOf_eq_of_getCol hv
    unfold cmSub
    rw [if_pos hb, if_neg (by decide : ¬ (("LOCATION", location_map).1 = "BADGE"))]
    show setColVals df "LOCATION"
        (List.map (mapCell location_map) (colOf df "LOCATION")) = df
    rw [map_eq_self_of (fun c hc => h c hc), hcol]
    exact setColVals_self hv
  · exact cmSub_ne_identity _ (by simpa using hb)

theorem smsStage_id {df : DataFrame}
    (h : ∀ c ∈ colOf df "SMS", some (clean_phone c) = c) :
    smsStage df = df := by
  by_cases hb : hasCol df "SMS" = true
  · obtain ⟨vs, hv⟩ := hasCol_iff_getCol.1 hb
    have hcol : colOf df "SMS" = vs := colOf_eq_of_getCol hv
    unfold smsStage
    rw [if_pos hb, map_eq_self_of (fun c hc => h c hc), hcol]
    exact setColVals_self hv
  · unfold smsStage
    rw [if_neg hb]

theorem dateSub_not {ff : Str → Option SDate} {cy : Int} {fld : String} {df : DataFrame}
    (hb : ¬ (hasCol df fld = true)) : dateSub ff cy fld df = df := by
  unfold dateSub
  rw [if_neg hb]

theorem dateSub_id {ff : Str → Option SDate} {cy : Int} {fld : String} {df : DataFrame}
    (h : ∀ c ∈ colOf df fld, ∀ a, some (format_date ff cy c a) = c)
    (hlen : fld = "BDAY" ∧ hasCol df "AGE" = true →
      (colOf df fld).length ≤ (colOf df "AGE").length) :
    dateSub ff cy fld df = df := by
  by_cases hb : hasCol df fld = true
  · obtain ⟨vs, hv⟩ := hasCol_iff_getCol.1 hb
    have hcol : colOf df fld = vs := colOf_eq_of_getCol hv
    unfold dateSub
    rw [if_pos hb]
    by_cases hA : fld = "BDAY" ∧ hasCol df "AGE" = true
    · rw [if_pos hA, zipWith_eq_left (fun x hx y => h x hx y) (hlen hA), hcol]
      exact setColVals_self hv
    · rw [if_neg hA, map_eq_self_of (fun c hc => h c hc none), hcol]
      exact setColVals_self hv
  · exact dateSub_not hb

theorem foldl_blankCol_cols_valid {l : List String} {df : DataFrame}
    (hl : ∀ n ∈ l, validCol n = true) (h : ∀ c ∈ df.cols, validCol c.1 = true) :
    ∀ c ∈ (l.foldl blankCol df).cols, validCol c.1 = true := by
  induction l generalizing df with
  | nil => exact h
  | cons m t ih =>
    rw [List.foldl_cons]
    apply ih (fun n hn => hl n (List.mem_cons_of_mem m hn))
    intro c hc
    unfold blankCol at hc
    rcases mem_setColVals hc with h1 | h1
    · exact h c h1
    · rw [h1]
      exact hl m (List.mem_cons_self m t)

theorem projectCols_id {df : DataFrame} (h : ∀ c ∈ df.cols, validCol c.1 = true) :
    projectCols df = df := by
  unfold projectCols
  rw [keepValid_eq_self h]

theorem getCol_clean_badge (ff : Str → Option SDate) (cy : Int) (df : DataFrame) :
    getCol (clean_dataframe ff cy df) "BADGE" =
      getCol (cmSub ("BADGE", badge_map) (process_interests (renameHeaders df))) "BADGE" := by
  rw [clean_dataframe_def, getCol_projectCols (by decide : validCol "BADGE" = true),
    dateStage_eq, getCol_dateSub_ne _ _ _ _ (by decide : "LAST_VISIT" ≠ "BADGE"),
    getCol_dateSub_ne _ _ _ _ (by decide : "BDAY" ≠ "BADGE"),
    getCol_smsStage_ne _ (by decide : "SMS" ≠ "BADGE"), applyCellMappings_eq,
    getCol_cmSub_ne _ _ (by decide : ("LOCATION", location_map).1 ≠ "BADGE")]

theorem badge_cells_fixed (ff : Str → Option SDate) (cy : Int) (df : DataFrame) :
    ∀ c ∈ colOf (clean_dataframe ff cy df) "BADGE",
      mapCell badge_map (badgeFill c) = c := by
  intro c hc
  have hO := getCol_clean_badge ff cy df
  by_cases hb : hasCol (process_interests (renameHeaders df)) "BADGE" = true
  · rw [getCol_cmSub_badge hb] at hO
    rw [colOf_eq_of_getCol hO] at hc
    obtain ⟨w, hw, he⟩ := List.mem_map.1 hc
    obtain ⟨w2, hw2, he2⟩ := List.mem_map.1 hw
    rw [← he, ← he2]
    exact badge_cell_fix w2
  · rw [cmSub_ne_identity _ (by simpa using hb), getCol_none_of_not hb] at hO
    rw [colOf_eq_nil_of_none hO] at hc
    simp at hc

theorem getCol_clean_location (ff : Str → Option SDate) (cy : Int) (df : DataFrame) :
    getCol (clean_dataframe ff cy df) "LOCATION" =
      getCol (cmSub ("LOCATION", location_map)
        (cmSub ("BADGE", badge_map) (process_interests (renameHeaders df)))) "LOCATION" := by
  rw [clean_dataframe_def, getCol_projectCols (by decide : validCol "LOCATION" = true),
    dateStage_eq, getCol_dateSub_ne _ _ _ _ (by decide : "LAST_VISIT" ≠ "LOCATION"),
    getCol_dateSub_ne _ _ _ _ (by decide : "BDAY" ≠ "LOCATION"),
    getCol_smsStage_ne _ (by decide : "SMS" ≠ "LOCATION"), applyCellMappings_eq]

theorem location_cells_fixed (ff : Str → Option SDate) (cy : Int) (df : DataFrame) :
    ∀ c ∈ colOf (clean_dataframe ff cy df) "LOCATION",
      mapCell location_map c = c := by
  intro c hc
  have hO := getCol_clean_location ff cy df
  by_cases hb : hasCol (cmSub ("BADGE", badge_map)
      (process_interests (renameHeaders df))) "LOCATION" = true
  · rw [getCol_cmSub_location hb] at hO
    rw [colOf_eq_of_getCol hO] at hc
    obtain ⟨w, hw, he⟩ := List.mem_map.1 hc
    rw [← he]
    exact location_cell_fix w
  · rw [cmSub_ne_identity _ (by simpa using hb), getCol_none_of_not hb] at hO
    rw [colOf_eq_nil_of_none hO] at hc
    simp at hc

theorem getCol_clean_sms (ff : Str → Option SDate) (cy : Int) (df : DataFrame) :
    getCol (clean_dataframe ff cy df) "SMS" =
      getCol (smsStage (applyCellMappings (process_interests (renameHeaders df)))) "SMS" := by
  rw [clean_dataframe_def, getCol_projectCols (by decide : validCol "SMS" = true),
    dateStage_eq, getCol_dateSub_ne _ _ _ _ (by decide : "LAST_VISIT" ≠ "SMS"),
    getCol_dateSub_ne _ _ _ _ (by decide : "BDAY" ≠ "SMS")]

theorem sms_cells_fixed (ff : Str → Option SDate) (cy : Int) (df : DataFrame) :
    ∀ c ∈ colOf (clean_dataframe ff cy df) "SMS", some (clean_phone c) = c := by
  intro c hc
  have hO := getCol_clean_sms ff cy df
  by_cases hb : hasCol (applyCellMappings (process_interests (renameHeaders df))) "SMS" = true
  · rw [getCol_smsStage_sms hb] at hO
    rw [colOf_eq_of_getCol hO] at hc
    obtain ⟨w, hw, he⟩ := List.mem_map.1 hc
    rw [← he]
    exact congrArg some (phone_cell_fix w)
  · have hid : smsStage (applyCellMappings (process_interests (renameHeaders df))) =
        applyCellMappings (process_interests (renameHeaders df)) := by
      unfold smsStage
      rw [if_neg hb]
    rw [hid, getCol_none_of_not hb] at hO
    rw [colOf_eq_nil_of_none hO] at hc
    simp at hc

theorem mem_colOf_dateSub {ff : Str → Option SDate} {cy : Int} {fld : String}
    {df : DataFrame} {c : Cell} (hb : hasCol df fld = true)
    (hc : c ∈ colOf (dateSub ff cy fld df) fld) :
    ∃ b a, c = some (format_date ff cy b a) := by
  unfold dateSub at hc
  rw [if_pos hb] at hc
  by_cases hA : fld = "BDAY" ∧ hasCol df "AGE" = true
  · rw [if_pos hA, colOf_setColVals_self] at hc
    obtain ⟨b, a, he⟩ := mem_zipWith hc
    exact ⟨b, a, he⟩
  · rw [if_neg hA, colOf_setColVals_self] at hc
    obtain ⟨b, hbm, he⟩ := List.mem_map.1 hc
    exact ⟨b, none, he.symm⟩

theorem bday_cells_formatted (ff : Str → Option SDate) (cy : Int) (df : DataFrame) :
    ∀ c ∈ colOf (clean_dataframe ff cy df) "BDAY",
      ∃ b a, c = some (format_date ff cy b a) := by
  intro c hc
  have hO : getCol (clean_dataframe ff cy df) "BDAY" =
      getCol (dateSub ff cy "BDAY"
        (smsStage (applyCellMappings (process_interests (renameHeaders df))))) "BDAY" := by
    rw [clean_dataframe_def, getCol_projectCols (by decide : validCol "BDAY" = true),
      dateStage_eq, getCol_dateSub_ne _ _ _ _ (by decide : "LAST_VISIT" ≠ "BDAY")]
  by_cases hb : hasCol (smsStage (applyCellMappings
      (process_interests (renameHeaders df)))) "BDAY" = true
  · apply mem_colOf_dateSub hb
    rw [colOf_congr hO] at hc
    exact hc
  · rw [dateSub_not hb, getCol_none_of_not hb] at hO
    rw [colOf_eq_nil_of_none hO] at hc
    simp at hc

theorem lv_cells_formatted (ff : Str → Option SDate) (cy : Int) (df : DataFrame) :
    ∀ c ∈ colOf (clean_dataframe ff cy df) "LAST_VISIT",
      ∃ b a, c = some (format_date ff cy b a) := by
  intro c hc
  have hO : getCol (clean_dataframe ff cy df) "LAST_VISIT" =
      getCol (dateSub ff cy "LAST_VISIT" (dateSub ff cy "BDAY"
        (smsStage (applyCellMappings (process_interests (renameHeaders df)))))) "LAST_VISIT" := by
    rw [clean_dataframe_def,
      getCol_projectCols (by decide : validCol "LAST_VISIT" = true), dateStage_eq]
  by_cases hb : hasCol (dateSub ff cy "BDAY" (smsStage (applyCellMappings
      (process_interests (renameHeaders df))))) "LAST_VISIT" = true
  · apply mem_colOf_dateSub hb
    rw [colOf_congr hO] at hc
    exact hc
  · rw [dateSub_not hb, getCol_none_of_not hb] at hO
    rw [colOf_eq_nil_of_none hO] at hc
    simp at hc

/-- C2: the engine is not idempotent in general (see `spec_C2_counterexample`);
the corrected law proved here: for every rectangular input and every valid
free-form oracle, running `clean_dataframe` on its own output returns that
output with the four INTEREST columns re-blanked to the empty string
(`blankInterests`), so a second run erases every YES marker the first run set
and changes nothing else. -/
theorem spec_C2_second_run {ff : Str → Option SDate} (hff : ValidFreeform ff) (cy : Int)
    {df : DataFrame} (hw : df.WF) :
    clean_dataframe ff cy (clean_dataframe ff cy df) =
      blankInterests (clean_dataframe ff cy df) := by
  have hOv : ∀ c ∈ (clean_dataframe ff cy df).cols, validCol c.1 = true := by
    intro c hc
    rw [clean_dataframe_def, cols_projectCols] at hc
    exact (mem_keepValid hc).2
  have hOw : (clean_dataframe ff cy df).WF := WF_clean_dataframe ff cy hw
  set O := clean_dataframe ff cy df with hO
  rw [blankInterests_eq]
  set B := interest_columns.foldl blankCol O with hB
  have hBw : B.WF := by
    rw [hB]
    exact WF_foldl_blankCol interest_columns hOw
  have hBv : ∀ c ∈ B.cols, validCol c.1 = true := by
    rw [hB]
    exact foldl_blankCol_cols_valid (by decide) hOv
  have hgB : ∀ n : String, n ∉ interest_columns → getCol B n = getCol O n := by
    intro n hn
    rw [hB]
    exact getCol_foldl_blankCol_ne hn
  have hcolB : ∀ n : String, n ∉ interest_columns → colOf B n = colOf O n :=
    fun n hn => colOf_congr (hgB n hn)
  have hrn : renameHeaders O = O := renameHeaders_id hOv
  have hpi : process_interests O = B := by
    rw [hB]
    exact process_interests_id
      (hasCol_false_of_valid hOv (by decide))
      (hasCol_false_of_valid hOv (by decide))
      (hasCol_false_of_valid hOv (by decide))
  have hbadge : cmSub ("BADGE", badge_map) B = B := by
    apply cmSub_badge_id
    rw [hcolB "BADGE" (by decide), hO]
    exact badge_cells_fixed ff cy df
  have hloc : cmSub ("LOCATION", location_map) B = B := by
    apply cmSub_location_id
    rw [hcolB "LOCATION" (by decide), hO]
    exact location_cells_fixed ff cy df
  have hcm : applyCellMappings B = B := by
    rw [applyCellMappings_eq, hbadge, hloc]
  have hsms : smsStage B = B := by
    apply smsStage_id
    rw [hcolB "SMS" (by decide), hO]
    exact sms_cells_fixed ff cy df
  have hbd : dateSub ff cy "BDAY" B = B := by
    apply dateSub_id
    · rw [hcolB "BDAY" (by decide), hO]
      intro c hc a
      obtain ⟨b, a0, he⟩ := bday_cells_formatted ff cy df c hc
      rw [he, format_date_idem hff]
    · intro hA
      by_cases hbB : hasCol B "BDAY" = true
      · rw [colOf_length hBw hbB, colOf_length hBw hA.2]
      · rw [colOf_eq_nil_of_none (getCol_none_of_not hbB)]
        exact Nat.zero_le _
  have hlv : dateSub ff cy "LAST_VISIT" B = B := by
    apply dateSub_id
    · rw [hcolB "LAST_VISIT" (by decide), hO]
      intro c hc a
      obtain ⟨b, a0, he⟩ := lv_cells_formatted ff cy df c hc
      rw [he, format_date_idem hff]
    · intro hA
      exact absurd hA.1 (by decide)
  have hproj : projectCols B = B := projectCols_id hBv
  rw [clean_dataframe_def, hrn, hpi, hcm, hsms, dateStage_eq, hbd, hlv, hproj]

/-- C2 witness: at the always-failing free-form oracle, current year 2025 and
the spec's own interest example table, the hypotheses hold and the second run
equals the interest-blanked first output. -/
theorem spec_C2_second_run_witness :
    ValidFreeform ffNone ∧ interestExampleDf.WF ∧
      clean_dataframe ffNone 2025 (clean_dataframe ffNone 2025 interestExampleDf) =
        blankInterests (clean_dataframe ffNone 2025 interestExampleDf) :=
  ⟨fun s d h => Option.noConfusion h, by decide,
    spec_C2_second_run (fun s d h => Option.noConfusion h) 2025 (by decide)⟩

/-- C2 counterexample: the engine is not idempotent - on the spec's own
interest-extraction example the first run marks INTEREST_ADULT and
INTEREST_FITNESS YES, and the second run blanks those markers again. -/
theorem spec_C2_counterexample :
    clean_dataframe ffNone 2025 (clean_dataframe ffNone 2025 interestExampleDf) ≠
      clean_dataframe ffNone 2025 interestExampleDf := by decide
